import Mathlib

/-
Verification development for the CloudNest restaurant dialogue engine
(src/app/rag_engine.py).

Embedding conventions:
* Python strings are Lean `String`s; `str.lower`/`str.upper`/`str.strip` are
  modeled for ASCII text (`Char.toLower` etc.), which covers every literal the
  engine compares against.
* Python dicts that the engine iterates over (pending orders, alias maps) are
  association lists `List (key × value)` with Python's insertion-order
  semantics: assigning to an existing key updates the value in place, a new
  key is appended (`dictUpsert`).
* The regular expressions of the source are evaluated by a small backtracking
  matcher (`RE`, `reMatches`, `reSearch`) with Python `re.search` semantics:
  leftmost match, greedy quantifiers, alternatives tried left to right.
* Fallible code paths are `Option`: a `none` result of `orderSummary`,
  `generateBill`, `handleOrderFlow` or `ruleStep` models an uncaught Python
  `KeyError` (pending item missing from the freshly parsed menu).  State
  updates performed before the raising call are kept, matching the in-place
  mutation of the session dictionaries in the source.
* `bill_id` (random uuid) and `issued_at` (clock) are nondeterministic and
  carry no logic; they are omitted from the `Bill` record, and the final
  "Bill ID: ..." text line is omitted from the rendered bill string.
* The external generation backend (google.genai) is excluded by the spec as a
  collaborator; `askQuestion` models the retrieval-only path.
-/

set_option maxRecDepth 8000

/-! ## Character and string helpers (Python `str` operations, ASCII) -/

def isSpacePy (c : Char) : Bool :=
  c = ' ' || c = '\t' || c = '\n' || c = '\x0d' || c = '\x0b' || c = '\x0c'

def isDigitC (c : Char) : Bool := '0' ≤ c && c ≤ '9'

def isAlnumLow (c : Char) : Bool := ('a' ≤ c && c ≤ 'z') || isDigitC c

/-- `\w` for ASCII text: `[a-zA-Z0-9_]`. -/
def isWordC (c : Char) : Bool :=
  ('a' ≤ c && c ≤ 'z') || ('A' ≤ c && c ≤ 'Z') || isDigitC c || c = '_'

def pyLower (s : String) : String := String.mk (s.data.map Char.toLower)

def pyUpperL (l : List Char) : List Char := l.map Char.toUpper

/-- Python `str.strip()` (ASCII whitespace). -/
def pyStrip (s : String) : String :=
  String.mk (((s.data.dropWhile isSpacePy).reverse.dropWhile isSpacePy).reverse)

/-- Is `sub` a contiguous sublist of `s`?  Models Python `sub in s`. -/
def isSubListOf (sub : List Char) : List Char → Bool
  | [] => sub.isEmpty
  | c :: rest => sub.isPrefixOf (c :: rest) || isSubListOf sub rest

def containsSub (s phrase : String) : Bool := isSubListOf phrase.data s.data

/-- Maximal runs of characters satisfying `keep`; `cur` is the reversed
current run.  Used for `_tokenize` and `str.split()`. -/
def runsGo (keep : Char → Bool) (cur : List Char) : List Char → List String
  | [] => if cur.isEmpty then [] else [String.mk cur.reverse]
  | c :: rest =>
    if keep c then runsGo keep (c :: cur) rest
    else if cur.isEmpty then runsGo keep [] rest
    else String.mk cur.reverse :: runsGo keep [] rest

/-- `_tokenize`: lowercase, then maximal `[a-z0-9]+` runs. -/
def tokenize (s : String) : List String := runsGo isAlnumLow [] (pyLower s).data

/-- Python `str.split()` with no argument: split on whitespace runs. -/
def splitWs (s : String) : List String := runsGo (fun c => !isSpacePy c) [] s.data

def digitsToNat (l : List Char) : Nat :=
  l.foldl (fun a c => a * 10 + (c.toNat - 48)) 0

/-- `re.sub(r"\s+", " ", m)`: collapse each whitespace run to one space.
The flag records whether the previous character was whitespace. -/
def collapseWsGo (prevSp : Bool) : List Char → List Char
  | [] => []
  | c :: rest =>
    if isSpacePy c then
      if prevSp then collapseWsGo true rest else ' ' :: collapseWsGo true rest
    else c :: collapseWsGo false rest

/-- Python `str.replace` (all non-overlapping occurrences, left to right);
`fuel` is the length of the remaining input. -/
def replaceAllGo (pat rep : List Char) : Nat → List Char → List Char
  | _, [] => []
  | 0, s => s
  | Nat.succ fuel, c :: rest =>
    if !pat.isEmpty && pat.isPrefixOf (c :: rest) then
      rep ++ replaceAllGo pat rep fuel ((c :: rest).drop pat.length)
    else c :: replaceAllGo pat rep fuel rest

def replaceAllL (s pat rep : List Char) : List Char := replaceAllGo pat rep s.length s

/-- Python `str.title()` restricted to the single lowercase words it is
applied to (the slot hint keywords). -/
def titleWord (s : String) : String :=
  match s.data with
  | [] => ""
  | c :: rest => String.mk (Char.toUpper c :: rest.map Char.toLower)

/-! ## A small backtracking regex matcher (Python `re.search` semantics) -/

inductive RE where
  | cls : (Char → Bool) → RE
  | lit : List Char → RE
  | seq : RE → RE → RE
  | alt : RE → RE → RE
  | opt : RE → RE
  | starCls : (Char → Bool) → RE
  | plusCls : (Char → Bool) → RE
  | bound : RE

/-- The character immediately before the rest of the input, given the
character before the whole attempt and the consumed prefix. -/
def lastOr (prev : Option Char) (m : List Char) : Option Char :=
  match m.getLast? with
  | some c => some c
  | none => prev

/-- Greedy `*` over a character class: all prefixes of the maximal run,
longest first (the backtracking order). -/
def starAlts (f : Char → Bool) (s : List Char) : List (List Char × List Char) :=
  let run := s.takeWhile f
  (List.range (run.length + 1)).reverse.map (fun n => (run.take n, s.drop n))

/-- Greedy `+` over a character class: longest first, at least one char. -/
def plusAlts (f : Char → Bool) (s : List Char) : List (List Char × List Char) :=
  (starAlts f s).filter (fun p => !p.1.isEmpty)

def isWordOpt : Option Char → Bool
  | some c => isWordC c
  | none => false

/-- All ways a pattern can match a prefix of `s`, as (consumed, rest) pairs,
in backtracking priority order.  `prev` is the character before `s`
(for `\b`). -/
def reMatches : RE → Option Char → List Char → List (List Char × List Char)
  | .cls _, _, [] => []
  | .cls f, _, c :: rest => if f c then [([c], rest)] else []
  | .lit l, _, s => if l.isPrefixOf s then [(l, s.drop l.length)] else []
  | .seq a b, prev, s =>
    (reMatches a prev s).flatMap
      (fun p => (reMatches b (lastOr prev p.1) p.2).map (fun q => (p.1 ++ q.1, q.2)))
  | .alt a b, prev, s => reMatches a prev s ++ reMatches b prev s
  | .opt a, prev, s => reMatches a prev s ++ [([], s)]
  | .starCls f, _, s => starAlts f s
  | .plusCls f, _, s => plusAlts f s
  | .bound, prev, s =>
    if isWordOpt prev != isWordOpt s.head? then [([], s)] else []

/-- `re.search`: try each start position left to right, and at the first
position with a match return the highest-priority one (group 0). -/
def reSearchGo (r : RE) : Option Char → List Char → Option (List Char)
  | prev, [] => (reMatches r prev []).head?.map Prod.fst
  | prev, c :: rest =>
    match (reMatches r prev (c :: rest)).head? with
    | some p => some p.1
    | none => reSearchGo r (some c) rest

def reSearch (r : RE) (s : List Char) : Option (List Char) := reSearchGo r none s

/-- Sequence a list of patterns; `lit []` is an always-matching epsilon. -/
def reSeqAll (l : List RE) : RE := l.foldr RE.seq (.lit [])

/-! ## Keyword sets (module constants of rag_engine.py) -/

def STOP_WORDS : List String :=
  ["a", "an", "and", "are", "at", "can", "do", "for", "from", "how", "i", "in",
   "is", "it", "me", "my", "of", "on", "or", "the", "to", "what", "when",
   "where", "which", "with", "you", "your"]

def MENU_KEYWORDS : List String :=
  ["menu", "food", "foods", "item", "items", "dish", "dishes", "price", "prices"]

def HOURS_KEYWORDS : List String :=
  ["hour", "hours", "open", "opening", "close", "closing", "timing", "time"]

def POLICY_KEYWORDS : List String :=
  ["policy", "policies", "rule", "rules", "outside", "delivery"]

def GREETING_KEYWORDS : List String := ["hi", "hello", "hey"]

def ORDER_KEYWORDS : List String :=
  ["order", "bill", "total", "buy", "want", "add", "cart", "checkout"]

def CONFIRM_KEYWORDS : List String :=
  ["ok", "okay", "yes", "confirm", "proceed", "place"]

def CANCEL_KEYWORDS : List String := ["cancel", "stop", "clear", "remove"]

def AMBIGUOUS_ALIAS_WORDS : List String :=
  ["veg", "nonveg", "vegetarian", "non-vegetarian", "vegan", "dessert"]

def DINE_IN_PHRASES : List String :=
  ["dine in", "dine-in", "dinein", "table", "eat in", "eat-in"]

def DELIVERY_PHRASES : List String :=
  ["online delivery", "home delivery", "delivery", "deliver", "door delivery"]

/-- `SLOT_HINTS` is a Python set whose iteration order is unspecified; the
hint loop of `_extract_slot` is modeled with the source's listing order.
No claim below depends on which of several matching hints wins. -/
def SLOT_HINTS : List String :=
  ["breakfast", "lunch", "dinner", "morning", "afternoon", "evening", "night"]

def MIN_ADDRESS_LENGTH : Nat := 10

/-- `GST_RATE = 0.05`.  The source multiplies by the IEEE double 0.05 and
applies Python `round` (half to even); for every subtotal the engine can
produce this equals half-to-even rounding of the exact rational
`subtotal / 20`, which is what `pyRound` computes. -/
def GST_RATE : ℚ := 5 / 100

/-! ## Slot extraction, service-mode detection, address heuristic -/

def reDigits12 : RE := .alt (.seq (.cls isDigitC) (.cls isDigitC)) (.cls isDigitC)

def reOptColonMM : RE :=
  .opt (.seq (.lit [':']) (.seq (.cls isDigitC) (.cls isDigitC)))

/-- `\d{1,2}(?::\d{2})?` -/
def reTime : RE := .seq reDigits12 reOptColonMM

def reAmPm : RE := .alt (.lit ['a', 'm']) (.lit ['p', 'm'])

def reOptSpace : RE := .opt (.cls isSpacePy)

def reSpaces : RE := .starCls isSpacePy

def reDashTo : RE := .alt (.lit ['-']) (.lit ['t', 'o'])

/-- `\b\d{1,2}(?::\d{2})?\s?(?:am|pm)\s*(?:-|to)\s*\d{1,2}(?::\d{2})?\s?(?:am|pm)\b` -/
def reSlotRange1 : RE :=
  reSeqAll [.bound, reTime, reOptSpace, reAmPm, reSpaces, reDashTo, reSpaces,
            reTime, reOptSpace, reAmPm, .bound]

/-- `\b\d{1,2}(?::\d{2})?\s*(?:-|to)\s*\d{1,2}(?::\d{2})?\s?(?:am|pm)\b` -/
def reSlotRange2 : RE :=
  reSeqAll [.bound, reTime, reSpaces, reDashTo, reSpaces, reTime, reOptSpace,
            reAmPm, .bound]

/-- `\b\d{1,2}(?::\d{2})?\s?(?:am|pm)\b` -/
def reTimeAmPm : RE := reSeqAll [.bound, reTime, reOptSpace, reAmPm, .bound]

/-- `\b\d{1,2}:\d{2}\b` -/
def reTime24 : RE :=
  reSeqAll [.bound, reDigits12, .lit [':'], .cls isDigitC, .cls isDigitC, .bound]

/-- `re.sub(r"\s+", " ", m).upper().replace(" TO ", " - ")` -/
def normSlotRange (m : List Char) : String :=
  String.mk (replaceAllL (pyUpperL (collapseWsGo false m))
    [' ', 'T', 'O', ' '] [' ', '-', ' '])

def slotHintScan (ql : List Char) : List String → String
  | [] => ""
  | h :: rest => if isSubListOf h.data ql then titleWord h else slotHintScan ql rest

/-- `_extract_slot` -/
def extractSlot (query : String) : String :=
  let q := pyStrip query
  let ql := (pyLower q).data
  match reSearch reSlotRange1 ql with
  | some m => normSlotRange m
  | none =>
  match reSearch reSlotRange2 ql with
  | some m => normSlotRange m
  | none =>
  match reSearch reTimeAmPm ql with
  | some m => String.mk (pyUpperL (collapseWsGo false m))
  | none =>
  match reSearch reTime24 ql with
  | some m => String.mk m
  | none => slotHintScan ql SLOT_HINTS

/-- `_detect_service_mode` -/
def detectServiceMode (query : String) : String :=
  let q := pyLower query
  if DINE_IN_PHRASES.any (fun p => isSubListOf p.data q.data) then "dine_in"
  else if DELIVERY_PHRASES.any (fun p => isSubListOf p.data q.data) then "delivery"
  else ""

/-- `_looks_like_address` -/
def looksLikeAddress (query : String) : Bool :=
  let q := pyStrip query
  if q.data.length < MIN_ADDRESS_LENGTH then false
  else if detectServiceMode q ≠ "" then false
  else
    let ql := pyLower q
    if ["confirm", "ok", "yes", "menu", "cancel"].contains ql then false
    else
      let wordCount := (splitWs q).length
      let hasNumeric := q.data.any isDigitC
      let hasSeparator := q.data.contains ',' || q.data.contains '-'
      decide (wordCount ≥ 3) || hasNumeric || hasSeparator

/-- Split on every occurrence of a single character, keeping empty pieces
(Python `str.split(sep)` for a one-character separator). -/
def splitOnCharGo (sep : Char) (cur : List Char) : List Char → List String
  | [] => [String.mk cur.reverse]
  | c :: rest =>
    if c = sep then String.mk cur.reverse :: splitOnCharGo sep [] rest
    else splitOnCharGo sep (c :: cur) rest

def splitOnChar (sep : Char) (s : String) : List String := splitOnCharGo sep [] s.data

/-- `_split_address_lines`, comma/word fallback part. -/
def splitAddressFallback (value : String) : List String :=
  let parts := ((splitOnChar ',' value).map pyStrip).filter (fun p => p ≠ "")
  if parts.length ≥ 2 then parts
  else
    let words := splitWs value
    if words.length ≥ 8 then
      let midpoint := words.length / 2
      [String.intercalate (" ") (words.take midpoint),
       String.intercalate (" ") (words.drop midpoint)]
    else [value]

/-- `_split_address_lines` (`str.splitlines` modeled as splitting on `\n`,
the only line separator a query string can carry here). -/
def splitAddressLines (address : String) : List String :=
  let value := pyStrip address
  if value = "" then []
  else if value.data.contains '\n' then
    let lines := ((splitOnChar '\n' value).map pyStrip).filter (fun l => l ≠ "")
    if lines ≠ [] then lines else splitAddressFallback value
  else splitAddressFallback value

/-! ## Knowledge store: sections and menu extraction -/

structure MenuItem where
  name : String
  price : Nat
  itemType : String
  ingredients : String
deriving DecidableEq

/-- `_find_line_index` (`-1` becomes `none`). -/
def findLineIdx (lines : List String) (pfx : String) : Option Nat :=
  lines.findIdx? (fun line => (pyLower pfx).data.isPrefixOf (pyLower line).data)

/-- `_section_between` -/
def sectionBetween (lines : List String) (startPfx : String)
    (endPfxs : List String) : List String :=
  match findLineIdx lines startPfx with
  | none => []
  | some i =>
    let rest := lines.drop (i + 1)
    let len :=
      match rest.findIdx? (fun line =>
          endPfxs.any (fun p => (pyLower p).data.isPrefixOf (pyLower line).data)) with
      | some k => k + 1
      | none => rest.length + 1
    (lines.drop i).take len

/-- Prefix match of `\s*-\s*[Rr][Ss]\s*(\d+)`; each `\s*` here is
deterministic because the next required character is never whitespace.
Returns the integer value of the greedy digit group. -/
def priceTailAt (s : List Char) : Option Nat :=
  match s.dropWhile isSpacePy with
  | '-' :: s2 =>
    (match (s2.dropWhile isSpacePy : List Char) with
     | r :: c :: s4 =>
       if Char.toLower r = 'r' && Char.toLower c = 's' then
         let ds := (s4.dropWhile isSpacePy).takeWhile isDigitC
         if ds.isEmpty then none else some (digitsToNat ds)
       else none
     | _ => none)
  | _ => none

/-- The lazy group `(.+?)` of the menu-line pattern: grow the name one
character at a time (shortest first, the lazy backtracking order) until the
price tail matches the remainder. -/
def nameSplitGo (accRev : List Char) : List Char → Option (List Char × Nat)
  | [] => none
  | c :: rest =>
    match priceTailAt rest with
    | some price => some ((c :: accRev).reverse, price)
    | none => nameSplitGo (c :: accRev) rest

/-- The `\s*` before `(.+?)`: greedy, longest first; on failure hand the
skipped whitespace back to the lazy group. -/
def trySpacePrefixes (rest : List Char) : Nat → Option (List Char × Nat)
  | 0 => nameSplitGo [] rest
  | Nat.succ i =>
    match nameSplitGo [] (rest.drop (i + 1)) with
    | some r => some r
    | none => trySpacePrefixes rest i

/-- `re.match(r"^\d+\.\s*(.+?)\s*-\s*Rs\s*(\d+)", line, re.IGNORECASE)`,
returning `(group(1).strip(), int(group(2)))`. -/
def parseMenuHeader (line : String) : Option (String × Nat) :=
  let s := line.data
  let ds := s.takeWhile isDigitC
  if ds.isEmpty then none
  else
    match s.drop ds.length with
    | '.' :: rest =>
      let maxSp := (rest.takeWhile isSpacePy).length
      (trySpacePrefixes rest maxSp).map (fun p => (pyStrip (String.mk p.1), p.2))
    | _ => none

/-- The in-progress record of `_extract_menu_items`. -/
structure MRec where
  name : String
  price : Nat
  mtype : String
  ingr : String

def afterColon (s : String) : String :=
  match s.data.dropWhile (fun c => c ≠ ':') with
  | _ :: t => String.mk t
  | [] => ""

/-- The accumulation loop of `_extract_menu_items`. -/
def menuAssemble (cur : Option MRec) : List String → List MRec
  | [] => match cur with | some c => [c] | none => []
  | raw :: rest =>
    let line := pyStrip raw
    match parseMenuHeader line with
    | some (nm, pr) =>
      let newCur : MRec := ⟨nm, pr, "", ""⟩
      match cur with
      | some c => c :: menuAssemble (some newCur) rest
      | none => menuAssemble (some newCur) rest
    | none =>
      match cur with
      | none => menuAssemble none rest
      | some c =>
        let ll := (pyLower line).data
        if ("type:" : String).data.isPrefixOf ll then
          menuAssemble (some { c with mtype := pyStrip (afterColon line) }) rest
        else if ("ingredients:" : String).data.isPrefixOf ll then
          menuAssemble (some { c with ingr := pyStrip (afterColon line) }) rest
        else menuAssemble (some c) rest

def mrecToItem (m : MRec) : MenuItem :=
  ⟨m.name, m.price, if m.mtype = "" then "N/A" else m.mtype,
   if m.ingr = "" then "N/A" else m.ingr⟩

/-- `_extract_menu_items` -/
def extractMenuItems (lines : List String) : List MenuItem :=
  let menuLines := sectionBetween lines ("Menu:") ["Policies:"]
  match menuLines with
  | [] => []
  | _ :: body => (menuAssemble none body).map mrecToItem

/-! ## Alias resolver and order parsing -/

/-- Python dict assignment: update an existing key in place (keeping its
insertion position), else append. -/
def dictUpsert {α : Type} : List (String × α) → String → α → List (String × α)
  | [], k, v => [(k, v)]
  | kv :: rest, k, v => if kv.1 = k then (k, v) :: rest else kv :: dictUpsert rest k v

def dictGetNat (d : List (String × Nat)) (k : String) : Nat := (d.lookup k).getD 0

/-- `_build_menu_alias_map` -/
def buildMenuAliasMap (menuItems : List MenuItem) : List (String × MenuItem) :=
  menuItems.foldl (fun aliases item =>
    let name := pyLower item.name
    let a1 := dictUpsert aliases name item
    let words := splitWs name
    match words with
    | [] => a1
    | w :: _ =>
      let first := w
      let last := words.getLastD ("")
      let a2 :=
        if !AMBIGUOUS_ALIAS_WORDS.contains first && first.data.length > 3 then
          dictUpsert a1 first item
        else a1
      if !AMBIGUOUS_ALIAS_WORDS.contains last && last.data.length > 3 then
        dictUpsert a2 last item
      else a2) []

/-- `\b<alias>\b` (aliases are `re.escape`d, so literal text). -/
def reAlias (a : List Char) : RE := reSeqAll [.bound, .lit a, .bound]

/-- `(\d+)\s*(?:x\s*)?\b<alias>\b` -/
def reLeftQty (a : List Char) : RE :=
  reSeqAll [.plusCls isDigitC, reSpaces, .opt (RE.seq (.lit ['x']) reSpaces), reAlias a]

/-- `\b<alias>\b\s*(?:x\s*)?(\d+)` -/
def reRightQty (a : List Char) : RE :=
  reSeqAll [reAlias a, reSpaces, .opt (RE.seq (.lit ['x']) reSpaces), .plusCls isDigitC]

/-- `_parse_order_from_query`.  In any successful match of the left pattern
the digit group is exactly the leading digit run of the match (nothing after
it can begin with a digit), and symmetrically the trailing run for the right
pattern; the groups are extracted that way. -/
def parseOrderFromQuery (query : String) (aliasMap : List (String × MenuItem)) :
    List (String × Nat) :=
  let q := (pyLower query).data
  aliasMap.foldl (fun order av =>
    let a := av.1.data
    if (reSearch (reAlias a) q).isNone then order
    else
      let qty :=
        match reSearch (reLeftQty a) q with
        | some m => digitsToNat (m.takeWhile isDigitC)
        | none =>
          match reSearch (reRightQty a) q with
          | some m => digitsToNat ((m.reverse.takeWhile isDigitC).reverse)
          | none => 1
      dictUpsert order av.2.name (max (dictGetNat order av.2.name) qty)) []

/-! ## Session data model -/

structure Ctx where
  mode : String
  stage : String
  slot : String
  address : String
deriving DecidableEq

/-- `_default_session_context` -/
def defaultCtx : Ctx := ⟨"", "choose_mode", "", ""⟩

structure BillItem where
  name : String
  quantity : Nat
  unitPrice : Nat
  lineTotal : Nat
deriving DecidableEq

structure Bill where
  items : List BillItem
  subtotal : Nat
  gst : Nat
  total : Nat
  mode : String
  slot : String
  address : String
  addressLines : List String
deriving DecidableEq

structure Response where
  answer : String
  kind : String
  orderPending : Bool
  total : Nat
  serviceMode : String
  serviceStage : String
  serviceSlot : String
deriving DecidableEq

/-- `_new_response` with a context supplied (every call site modeled here
passes one). -/
def newResponse (answer kind : String) (orderPending : Bool) (total : Nat)
    (ctx : Ctx) : Response :=
  ⟨answer, kind, orderPending, total, ctx.mode, ctx.stage, ctx.slot⟩

/-- One session's state: pending order, service context, latest bill. -/
structure SessState where
  pending : List (String × Nat)
  ctx : Ctx
  latestBill : Option Bill
deriving DecidableEq

def initialState : SessState := ⟨[], defaultCtx, none⟩

/-! ## Billing -/

/-- `_mode_label` -/
def modeLabel (mode : String) : String :=
  if mode = "dine_in" then "Dine-In"
  else if mode = "delivery" then "Online Delivery" else ""

/-- `{item.name: item for item in menu_items}` (later duplicates win). -/
def menuByName (menuItems : List MenuItem) : List (String × MenuItem) :=
  menuItems.foldl (fun d it => dictUpsert d it.name it) []

/-- Python `round` on the exact value: round half to even. -/
def pyRound (x : ℚ) : Int :=
  let f := Int.floor x
  let r := x - f
  if r < 1 / 2 then f
  else if 1 / 2 < r then f + 1
  else if f % 2 = 0 then f else f + 1

/-- `round(subtotal * GST_RATE)` computed on naturals: half-to-even rounding
of `subtotal / 20`.  `gstNat_eq_pyRound` below proves it equal to
`pyRound (subtotal * GST_RATE)`. -/
def gstNat (subtotal : Nat) : Nat :=
  let q := subtotal / 20
  let r := subtotal % 20
  if r < 10 then q
  else if 10 < r then q + 1
  else if q % 2 = 0 then q else q + 1

/-- The per-item loop shared by `_order_summary` and `_generate_bill`:
`none` models the `KeyError` raised when a pending item is missing from the
freshly parsed menu. -/
def billRowsGo (mbn : List (String × MenuItem)) : List (String × Nat) → Option (List BillItem)
  | [] => some []
  | (nm, qty) :: rest =>
    match mbn.lookup nm with
    | none => none
    | some item =>
      match billRowsGo mbn rest with
      | none => none
      | some rows => some (⟨item.name, qty, item.price, item.price * qty⟩ :: rows)

def itemLineText (i : Nat) (r : BillItem) : String :=
  let nm := r.name
  let q := r.quantity
  let t := r.lineTotal
  s!"{i}. {nm} x{q} = Rs {t}"

/-- `_order_summary` -/
def orderSummary (order : List (String × Nat)) (menuItems : List MenuItem)
    (ctx : Ctx) : Option (String × Nat) :=
  match billRowsGo (menuByName menuItems) order with
  | none => none
  | some rows =>
    let ml := modeLabel ctx.mode
    let lines1 := ["Pending Order:"] ++ (if ml ≠ "" then [s!"Order Type: {ml}"] else [])
    let sl := ctx.slot
    let lines2 := lines1 ++
      (if ctx.mode = "dine_in" ∧ ctx.slot ≠ "" then [s!"Dine-In Slot: {sl}"] else [])
    let itemLines := rows.enum.map (fun p => itemLineText (p.1 + 1) p.2)
    let subtotal := (rows.map BillItem.lineTotal).sum
    let lines3 := lines2 ++ itemLines ++ [s!"Estimated Subtotal: Rs {subtotal}"]
    let lines4 := lines3 ++
      (if ctx.mode = "delivery" ∧ ctx.address = "" then
        ["At confirm, you will be asked for delivery address."] else [])
    let lines5 := lines4 ++
      ["Type \x27confirm\x27 to place order and generate final bill, or \x27cancel\x27 to discard."]
    some (String.intercalate ("\n") lines5, subtotal)

/-- `_generate_bill` (without the nondeterministic bill id / timestamp). -/
def generateBill (order : List (String × Nat)) (menuItems : List MenuItem)
    (ctx : Ctx) : Option (String × Bill) :=
  match billRowsGo (menuByName menuItems) order with
  | none => none
  | some rows =>
    let ml := modeLabel ctx.mode
    let lines1 := ["Final Bill:"] ++ (if ml ≠ "" then [s!"Order Type: {ml}"] else [])
    let sl := ctx.slot
    let lines2 := lines1 ++
      (if ctx.mode = "dine_in" ∧ ctx.slot ≠ "" then [s!"Dine-In Slot: {sl}"] else [])
    let addrLines := splitAddressLines ctx.address
    let lines3 := lines2 ++
      (if ctx.mode = "delivery" ∧ ctx.address ≠ "" then
        "Delivery Address:" :: addrLines.map (fun a => s!"- {a}") else [])
    let itemLines := rows.enum.map (fun p => itemLineText (p.1 + 1) p.2)
    let subtotal := (rows.map BillItem.lineTotal).sum
    let gst := gstNat subtotal
    let total := subtotal + gst
    let lines4 := lines3 ++ itemLines ++
      [s!"Subtotal: Rs {subtotal}", s!"GST (5%): Rs {gst}", s!"Total: Rs {total}"]
    let bill : Bill :=
      ⟨rows, subtotal, gst, total, ctx.mode, ctx.slot, ctx.address, addrLines⟩
    some (String.intercalate ("\n") lines4, bill)

/-- `_format_menu_list` -/
def formatMenuList (menuItems : List MenuItem) : String :=
  match menuItems with
  | [] => "Menu is currently unavailable."
  | _ =>
    String.intercalate ("\n") ("Menu Items:" :: menuItems.map (fun it =>
      let nm := it.name
      let pr := it.price
      let ty := it.itemType
      let ing := it.ingredients
      s!"- {nm} - Rs {pr} ({ty}, Ingredients: {ing})"))

def hasAnyKw (tokens : List String) (kws : List String) : Bool :=
  tokens.any (fun t => kws.contains t)

/-! ## Dialogue engine

`_handle_order_flow` and `_rule_based_response` are cascades of `if`
statements that each end in `return`; every arm of the cascade is given its
own definition here (named after the source lines it embeds) and the
top-level functions chain them with if/else.  The returned state carries
every in-place mutation performed before the `return` (or, for a `none`
response, before the raising call), mirroring the shared session
dictionaries of the source. -/

/-- `_handle_order_flow` lines 508-514: a cancel keyword is present. -/
def orderCancelBranch (s : SessState) : SessState × Option Response :=
  if s.pending ≠ [] then
    let ctx2 :=
      if s.ctx.mode = "delivery" ∧ s.ctx.stage = "await_address" then
        { s.ctx with stage := "ordering" }
      else s.ctx
    ({ s with pending := [], ctx := ctx2 },
     some (newResponse ("Pending order cancelled.") "order_cancelled" false 0 ctx2))
  else (s, some (newResponse ("No pending order to cancel.") "message" false 0 s.ctx))

/-- `_handle_order_flow` lines 516-559: a confirm keyword is present. -/
def orderConfirmBranch (s : SessState) (menuItems : List MenuItem) :
    SessState × Option Response :=
  if s.pending = [] then
    (s, some (newResponse ("No pending order found. Add items first, then type confirm.")
      "message" false 0 s.ctx))
  else if s.ctx.mode = "" then
    let ctx2 := { s.ctx with stage := "choose_mode" }
    ({ s with ctx := ctx2 },
     some (newResponse ("Before placing order, please tell me: Dine-In or Online Delivery?")
       "mode_required" true 0 ctx2))
  else if s.ctx.mode = "dine_in" ∧ s.ctx.slot = "" then
    let ctx2 := { s.ctx with stage := "await_slot" }
    ({ s with ctx := ctx2 },
     some (newResponse ("Please share your preferred dine-in slot (example: 7:30 PM, Dinner, 8 PM).")
       "slot_required" true 0 ctx2))
  else if s.ctx.mode = "delivery" ∧ s.ctx.address = "" then
    let ctx2 := { s.ctx with stage := "await_address" }
    match orderSummary s.pending menuItems ctx2 with
    | none => ({ s with ctx := ctx2 }, none)
    | some (summary, subtotal) =>
      ({ s with ctx := ctx2 },
       some (newResponse (summary ++ "\nPlease share complete delivery address to generate final bill.")
         "address_required" true subtotal ctx2))
  else
    match generateBill s.pending menuItems s.ctx with
    | none => (s, none)
    | some (billText, bill) =>
      (⟨[], defaultCtx, some bill⟩,
       some (newResponse billText ("bill") false bill.total defaultCtx))

/-- `_handle_order_flow` lines 561-602: no cancel/confirm keyword; parse
item mentions and update the pending order. -/
def orderItemsBranch (query : String) (tokens : List String) (s : SessState)
    (menuItems : List MenuItem) : SessState × Option Response :=
  let parsed := parseOrderFromQuery query (buildMenuAliasMap menuItems)
  if parsed = [] then
    if hasAnyKw tokens ORDER_KEYWORDS ∧ s.pending ≠ [] then
      match orderSummary s.pending menuItems s.ctx with
      | none => (s, none)
      | some (summary, subtotal) =>
        (s, some (newResponse summary ("pending_order") true subtotal s.ctx))
    else if hasAnyKw tokens ORDER_KEYWORDS then
      (s, some (newResponse ("Add items with quantity, for example: 2 Margherita Pizza and 1 Veg Salad.")
        "message" false 0 s.ctx))
    else (s, some (newResponse ("") "message" false 0 s.ctx))
  else if s.ctx.mode = "" then
    let ctx2 := { s.ctx with stage := "choose_mode" }
    ({ s with ctx := ctx2 },
     some (newResponse ("Before adding items, tell me your order type: Dine-In or Online Delivery?")
       "mode_required" false 0 ctx2))
  else if s.ctx.mode = "dine_in" ∧ s.ctx.slot = "" then
    let ctx2 := { s.ctx with stage := "await_slot" }
    ({ s with ctx := ctx2 },
     some (newResponse ("Please confirm your dine-in slot first (example: 7:30 PM or Dinner).")
       "slot_required" false 0 ctx2))
  else
    let newPending :=
      if tokens.contains ("add") ∧ s.pending ≠ [] then
        parsed.foldl (fun p kv => dictUpsert p kv.1 (dictGetNat p kv.1 + kv.2)) s.pending
      else parsed
    let ctx2 := { s.ctx with stage := "ordering" }
    match orderSummary newPending menuItems ctx2 with
    | none => ({ s with pending := newPending, ctx := ctx2 }, none)
    | some (summary, subtotal) =>
      ({ s with pending := newPending, ctx := ctx2 },
       some (newResponse summary ("pending_order") true subtotal ctx2))

/-- `_handle_order_flow` -/
def handleOrderFlow (query : String) (s : SessState) (menuItems : List MenuItem) :
    SessState × Option Response :=
  let tokens := tokenize query
  if hasAnyKw tokens CANCEL_KEYWORDS then orderCancelBranch s
  else if hasAnyKw tokens CONFIRM_KEYWORDS then orderConfirmBranch s menuItems
  else orderItemsBranch query tokens s menuItems

/-- `_rule_based_response` lines 610-633: a service-mode phrase was
detected (`_detect_service_mode` only ever returns "dine_in" or "delivery"
besides "", so the delivery arm is the else of the dine-in arm). -/
def modeSelectBranch (serviceMode : String) (s : SessState) :
    SessState × Option Response :=
  let pending2 := if s.pending ≠ [] ∧ serviceMode ≠ s.ctx.mode then [] else s.pending
  if serviceMode = "dine_in" then
    let ctx2 := { s.ctx with mode := "dine_in", stage := "await_slot", address := "" }
    ({ s with pending := pending2, ctx := ctx2 },
     some (newResponse ("Dine-In selected. Please share your preferred time slot (example: 7:30 PM, 8 PM, Dinner).")
       "mode_selected" false 0 ctx2))
  else
    let ctx2 := { s.ctx with mode := "delivery", stage := "ordering", slot := "" }
    ({ s with pending := pending2, ctx := ctx2 },
     some (newResponse ("Online Delivery selected. Now choose Veg/Non-Veg, add items, and confirm. I will ask delivery address at the end.")
       "mode_selected" false 0 ctx2))

/-- `_rule_based_response` lines 635-649: stage "await_slot". -/
def awaitSlotBranch (query : String) (s : SessState) : SessState × Option Response :=
  let slot := extractSlot query
  if slot ≠ "" then
    let ctx2 := { s.ctx with slot := slot, stage := "ordering" }
    ({ s with ctx := ctx2 },
     some (newResponse (s!"Dine-In slot confirmed: {slot}. Now choose Veg/Non-Veg and add items from menu.")
       "slot_confirmed" false 0 ctx2))
  else
    (s, some (newResponse ("Please share a valid time slot (example: 7:30 PM, 8 PM, Dinner).")
      "slot_required" false 0 s.ctx))

/-- `_rule_based_response` lines 651-659: dine-in ordering, opportunistic
slot update (taken only when a slot was extracted). -/
def slotUpdateBranch (us : String) (s : SessState) : SessState × Option Response :=
  let ctx2 := { s.ctx with slot := us }
  ({ s with ctx := ctx2 },
   some (newResponse (s!"Dine-In slot updated: {us}. You can continue ordering.")
     "slot_confirmed" false 0 ctx2))

/-- `_rule_based_response` lines 661-692: stage "await_address". -/
def awaitAddressBranch (query : String) (tokens : List String) (s : SessState)
    (menuItems : List MenuItem) : SessState × Option Response :=
  if hasAnyKw tokens CANCEL_KEYWORDS then
    let ctx2 := { s.ctx with stage := "ordering", address := "" }
    ({ s with pending := [], ctx := ctx2 },
     some (newResponse ("Pending order cancelled.") "order_cancelled" false 0 ctx2))
  else if looksLikeAddress query then
    let ctx2 := { s.ctx with address := pyStrip query, stage := "ordering" }
    if s.pending ≠ [] then
      match generateBill s.pending menuItems ctx2 with
      | none => ({ s with ctx := ctx2 }, none)
      | some (billText, bill) =>
        (⟨[], defaultCtx, some bill⟩,
         some (newResponse billText ("bill") false bill.total defaultCtx))
    else
      ({ s with ctx := ctx2 },
       some (newResponse ("Address saved. You can continue ordering.") "message" false 0 ctx2))
  else
    (s, some (newResponse ("Please provide complete delivery address (house/flat, area, city, pincode).")
      "address_required" false 0 s.ctx))

/-- `_rule_based_response` lines 711-724: static keyword routes, reached
when the order flow produced an empty answer (which it does without
mutating any state). -/
def staticRoutes (tokens : List String) (s : SessState) (lines : List String)
    (menuItems : List MenuItem) : SessState × Option Response :=
  if hasAnyKw tokens MENU_KEYWORDS then
    (s, some (newResponse (formatMenuList menuItems) "menu" false 0 s.ctx))
  else if hasAnyKw tokens HOURS_KEYWORDS ∧
      sectionBetween lines ("Opening Hours:") ["Menu:", "Policies:"] ≠ [] then
    (s, some (newResponse
      (String.intercalate ("\n") (sectionBetween lines ("Opening Hours:") ["Menu:", "Policies:"]))
      "hours" false 0 s.ctx))
  else if hasAnyKw tokens POLICY_KEYWORDS ∧ sectionBetween lines ("Policies:") [] ≠ [] then
    (s, some (newResponse (String.intercalate ("\n") (sectionBetween lines ("Policies:") []))
      "policy" false 0 s.ctx))
  else (s, some (newResponse ("") "message" false 0 s.ctx))

/-- `_rule_based_response` -/
def ruleStep (query : String) (s : SessState) (lines : List String) :
    SessState × Option Response :=
  let tokens := tokenize query
  let menuItems := extractMenuItems lines
  let serviceMode := detectServiceMode query
  if serviceMode ≠ "" then modeSelectBranch serviceMode s
  else if s.ctx.stage = "await_slot" then awaitSlotBranch query s
  else if s.ctx.mode = "dine_in" ∧ s.ctx.stage = "ordering" ∧ extractSlot query ≠ "" then
    slotUpdateBranch (extractSlot query) s
  else if s.ctx.stage = "await_address" then awaitAddressBranch query tokens s menuItems
  else if s.ctx.mode = "" ∧ hasAnyKw tokens (GREETING_KEYWORDS ++ ORDER_KEYWORDS ++
      MENU_KEYWORDS ++ CONFIRM_KEYWORDS ++ CANCEL_KEYWORDS) then
    (s, some (newResponse ("Is this for Dine-In or Online Delivery?") "mode_required" false 0 s.ctx))
  else if hasAnyKw tokens GREETING_KEYWORDS then
    if s.ctx.mode = "" then
      (s, some (newResponse ("Hello. Is this for Dine-In or Online Delivery?") "message" false 0 s.ctx))
    else
      (s, some (newResponse ("Hello. You can now choose Veg/Non-Veg and place your order.")
        "message" false 0 s.ctx))
  else
    let r := handleOrderFlow query s menuItems
    match r.2 with
    | none => r
    | some resp =>
      if resp.answer ≠ "" then r
      else staticRoutes tokens s lines menuItems

/-! ## Lexical retriever and the top-level entry point -/

/-- `_score_line` -/
def scoreLine (line : String) (query : String) (queryTokens : List String) : Nat :=
  let lineTokens := tokenize line
  let hits := (queryTokens.filter (fun t => lineTokens.contains t)).length
  let ql := pyStrip (pyLower query)
  let bonus := if ql ≠ "" ∧ isSubListOf ql.data (pyLower line).data then 2 else 0
  hits + bonus

def insertSorted {α : Type} (le : α → α → Bool) (x : α) : List α → List α
  | [] => [x]
  | y :: rest => if le x y then x :: y :: rest else y :: insertSorted le x rest

/-- Python `sorted` for the keys used below (all distinct, so stability is
irrelevant and insertion sort agrees with timsort). -/
def sortByLe {α : Type} (le : α → α → Bool) (l : List α) : List α :=
  l.foldr (insertSorted le) []

/-- `sorted(scored, key=lambda item: (-item[0], item[1]))` -/
def scoredLe (a b : Nat × Nat × String) : Bool :=
  Nat.blt b.1 a.1 || (a.1 == b.1 && Nat.ble a.2.1 b.2.1)

/-- `retrieve_context`; `restaurantText` is the process-start snapshot
returned when the current document has no lines. -/
def retrieveContext (query : String) (topK : Nat) (lines : List String)
    (restaurantText : String) : String :=
  if lines = [] then restaurantText
  else
    let queryTokens := (tokenize query).filter (fun t => !STOP_WORDS.contains t)
    if queryTokens = [] then String.intercalate ("\n") (lines.take topK)
    else
      let scored := (lines.enum.map (fun p => (scoreLine p.2 query queryTokens, p.1, p.2))).filter
        (fun t => 0 < t.1)
      if scored = [] then String.intercalate ("\n") (lines.take topK)
      else
        let top := (sortByLe scoredLe scored).take topK
        let selIdx := sortByLe Nat.ble (top.map (fun t => t.2.1))
        String.intercalate ("\n") (selIdx.map (fun i => lines.getD i ("")))

/-- `ask_question`, for a loaded knowledge file and the retrieval-only
fallback (the external generation backend is out of scope). -/
def askQuestion (query : String) (s : SessState) (lines : List String)
    (restaurantText : String) : SessState × Option Response :=
  let question := pyStrip query
  if question = "" then
    (s, some (newResponse ("Please enter a valid question.") "message" false 0 s.ctx))
  else
    let direct := ruleStep question s lines
    match direct.2 with
    | none => direct
    | some resp =>
      if resp.answer ≠ "" then direct
      else
        (direct.1, some (newResponse (retrieveContext question 8 lines restaurantText)
          "message" false 0 direct.1.ctx))

/-! ## Invariants -/

def ctxInv (c : Ctx) : Prop :=
  (c.stage = "await_slot" → c.mode = "dine_in") ∧
  (c.stage = "await_address" → c.mode = "delivery") ∧
  (c.mode = "" → c.stage = "choose_mode")

/-- Session states reachable from a fresh session by any sequence of
dialogue operations, with an arbitrary (possibly live-edited) knowledge
document on each step. -/
inductive Reachable : SessState → Prop where
  | init : Reachable initialState
  | step (s : SessState) (q : String) (L : List String) :
      Reachable s → Reachable (ruleStep q s L).1

theorem ctxInv_modeSelect (sm : String) (s : SessState) :
    ctxInv (modeSelectBranch sm s).1.ctx := by
  unfold modeSelectBranch
  dsimp only
  split_ifs <;> simp_all [ctxInv]

theorem ctxInv_awaitSlot (q : String) (s : SessState) (h : ctxInv s.ctx)
    (hst : s.ctx.stage = "await_slot") : ctxInv (awaitSlotBranch q s).1.ctx := by
  have hm := h.1 hst
  unfold awaitSlotBranch
  dsimp only
  split_ifs <;> simp_all [ctxInv]

theorem ctxInv_slotUpdate (us : String) (s : SessState) (hm : s.ctx.mode = "dine_in")
    (hst : s.ctx.stage = "ordering") : ctxInv (slotUpdateBranch us s).1.ctx := by
  unfold slotUpdateBranch
  simp_all [ctxInv]

theorem ctxInv_awaitAddress (q : String) (toks : List String) (s : SessState)
    (menuItems : List MenuItem) (h : ctxInv s.ctx)
    (hst : s.ctx.stage = "await_address") :
    ctxInv (awaitAddressBranch q toks s menuItems).1.ctx := by
  have hm := h.2.1 hst
  unfold awaitAddressBranch
  dsimp only
  split_ifs <;> (repeat' split) <;> simp_all [ctxInv, defaultCtx]

theorem ctxInv_orderCancel (s : SessState) (h : ctxInv s.ctx) :
    ctxInv (orderCancelBranch s).1.ctx := by
  unfold orderCancelBranch
  dsimp only
  split_ifs <;> simp_all [ctxInv]

theorem ctxInv_orderConfirm (s : SessState) (menuItems : List MenuItem)
    (h : ctxInv s.ctx) : ctxInv (orderConfirmBranch s menuItems).1.ctx := by
  unfold orderConfirmBranch
  dsimp only
  split_ifs <;> (repeat' split) <;> simp_all [ctxInv, defaultCtx]

theorem ctxInv_orderItems (q : String) (toks : List String) (s : SessState)
    (menuItems : List MenuItem) (h : ctxInv s.ctx) :
    ctxInv (orderItemsBranch q toks s menuItems).1.ctx := by
  unfold orderItemsBranch
  dsimp only
  split_ifs <;> (repeat' split) <;> simp_all [ctxInv, defaultCtx]

theorem ctxInv_handleOrderFlow (q : String) (s : SessState)
    (menuItems : List MenuItem) (h : ctxInv s.ctx) :
    ctxInv (handleOrderFlow q s menuItems).1.ctx := by
  unfold handleOrderFlow
  dsimp only
  split_ifs
  · exact ctxInv_orderCancel s h
  · exact ctxInv_orderConfirm s menuItems h
  · exact ctxInv_orderItems q (tokenize q) s menuItems h

theorem ctxInv_staticRoutes (toks : List String) (s : SessState)
    (lines : List String) (menuItems : List MenuItem) (h : ctxInv s.ctx) :
    ctxInv (staticRoutes toks s lines menuItems).1.ctx := by
  unfold staticRoutes
  split_ifs <;> simp_all [ctxInv]

theorem ctxInv_step (q : String) (s : SessState) (L : List String) (h : ctxInv s.ctx) :
    ctxInv (ruleStep q s L).1.ctx := by
  unfold ruleStep
  dsimp only
  by_cases h1 : detectServiceMode q ≠ ""
  · rw [if_pos h1]; exact ctxInv_modeSelect _ s
  · rw [if_neg h1]
    by_cases h2 : s.ctx.stage = "await_slot"
    · rw [if_pos h2]; exact ctxInv_awaitSlot q s h h2
    · rw [if_neg h2]
      by_cases h3 : s.ctx.mode = "dine_in" ∧ s.ctx.stage = "ordering" ∧ extractSlot q ≠ ""
      · rw [if_pos h3]; exact ctxInv_slotUpdate _ s h3.1 h3.2.1
      · rw [if_neg h3]
        by_cases h4 : s.ctx.stage = "await_address"
        · rw [if_pos h4]; exact ctxInv_awaitAddress q _ s _ h h4
        · rw [if_neg h4]
          by_cases h5 : s.ctx.mode = "" ∧ hasAnyKw (tokenize q) (GREETING_KEYWORDS ++
              ORDER_KEYWORDS ++ MENU_KEYWORDS ++ CONFIRM_KEYWORDS ++ CANCEL_KEYWORDS) = true
          · rw [if_pos h5]; exact h
          · rw [if_neg h5]
            by_cases h6 : hasAnyKw (tokenize q) GREETING_KEYWORDS = true
            · rw [if_pos h6]; split_ifs <;> exact h
            · rw [if_neg h6]
              rcases hr : (handleOrderFlow q s (extractMenuItems L)).2 with _ | resp
              · simpa [hr] using ctxInv_handleOrderFlow q s (extractMenuItems L) h
              · simp only [hr]
                split_ifs with ha
                · exact ctxInv_handleOrderFlow q s (extractMenuItems L) h
                · exact ctxInv_staticRoutes _ s L _ h

/-- The C10 invariant: awaiting an address implies a non-empty pending order. -/
def pendInv (s : SessState) : Prop := s.ctx.stage = "await_address" → s.pending ≠ []

theorem pendInv_modeSelect (sm : String) (s : SessState) :
    pendInv (modeSelectBranch sm s).1 := by
  unfold modeSelectBranch
  dsimp only
  split_ifs <;> simp_all [pendInv]

theorem pendInv_awaitSlot (q : String) (s : SessState)
    (hst : s.ctx.stage = "await_slot") : pendInv (awaitSlotBranch q s).1 := by
  unfold awaitSlotBranch
  dsimp only
  split_ifs <;> simp_all [pendInv]

theorem pendInv_slotUpdate (us : String) (s : SessState)
    (hst : s.ctx.stage = "ordering") : pendInv (slotUpdateBranch us s).1 := by
  unfold slotUpdateBranch
  simp_all [pendInv]

theorem pendInv_awaitAddress (q : String) (toks : List String) (s : SessState)
    (menuItems : List MenuItem) (h : pendInv s)
    (hst : s.ctx.stage = "await_address") :
    pendInv (awaitAddressBranch q toks s menuItems).1 := by
  unfold awaitAddressBranch
  dsimp only
  split_ifs <;> (repeat' split) <;> simp_all [pendInv, defaultCtx]

theorem pendInv_orderCancel (s : SessState) (hst : s.ctx.stage ≠ "await_address") :
    pendInv (orderCancelBranch s).1 := by
  unfold orderCancelBranch
  dsimp only
  split_ifs <;> simp_all [pendInv]

theorem pendInv_orderConfirm (s : SessState) (menuItems : List MenuItem)
    (hst : s.ctx.stage ≠ "await_address") :
    pendInv (orderConfirmBranch s menuItems).1 := by
  unfold orderConfirmBranch
  dsimp only
  split_ifs <;> (repeat' split) <;> simp_all [pendInv, defaultCtx]

theorem pendInv_orderItems (q : String) (toks : List String) (s : SessState)
    (menuItems : List MenuItem) (hst : s.ctx.stage ≠ "await_address") :
    pendInv (orderItemsBranch q toks s menuItems).1 := by
  unfold orderItemsBranch
  dsimp only
  split_ifs <;> (repeat' split) <;> simp_all [pendInv, defaultCtx]

theorem pendInv_handleOrderFlow (q : String) (s : SessState)
    (menuItems : List MenuItem) (hst : s.ctx.stage ≠ "await_address") :
    pendInv (handleOrderFlow q s menuItems).1 := by
  unfold handleOrderFlow
  dsimp only
  split_ifs
  · exact pendInv_orderCancel s hst
  · exact pendInv_orderConfirm s menuItems hst
  · exact pendInv_orderItems q (tokenize q) s menuItems hst

theorem pendInv_step (q : String) (s : SessState) (L : List String) (h : pendInv s) :
    pendInv (ruleStep q s L).1 := by
  unfold ruleStep
  dsimp only
  by_cases h1 : detectServiceMode q ≠ ""
  · rw [if_pos h1]; exact pendInv_modeSelect _ s
  · rw [if_neg h1]
    by_cases h2 : s.ctx.stage = "await_slot"
    · rw [if_pos h2]; exact pendInv_awaitSlot q s h2
    · rw [if_neg h2]
      by_cases h3 : s.ctx.mode = "dine_in" ∧ s.ctx.stage = "ordering" ∧ extractSlot q ≠ ""
      · rw [if_pos h3]; exact pendInv_slotUpdate _ s h3.2.1
      · rw [if_neg h3]
        by_cases h4 : s.ctx.stage = "await_address"
        · rw [if_pos h4]; exact pendInv_awaitAddress q _ s _ h h4
        · rw [if_neg h4]
          by_cases h5 : s.ctx.mode = "" ∧ hasAnyKw (tokenize q) (GREETING_KEYWORDS ++
              ORDER_KEYWORDS ++ MENU_KEYWORDS ++ CONFIRM_KEYWORDS ++ CANCEL_KEYWORDS) = true
          · rw [if_pos h5]; exact h
          · rw [if_neg h5]
            by_cases h6 : hasAnyKw (tokenize q) GREETING_KEYWORDS = true
            · rw [if_pos h6]; split_ifs <;> exact h
            · rw [if_neg h6]
              rcases hr : (handleOrderFlow q s (extractMenuItems L)).2 with _ | resp
              · simpa [hr] using pendInv_handleOrderFlow q s (extractMenuItems L) h4
              · simp only [hr]
                split_ifs with ha
                · exact pendInv_handleOrderFlow q s (extractMenuItems L) h4
                · unfold staticRoutes
                  split_ifs <;> simp_all [pendInv]

theorem ctxInv_reachable (s : SessState) (h : Reachable s) : ctxInv s.ctx := by
  induction h with
  | init => simp [ctxInv, initialState, defaultCtx]
  | step s q L _ ih => exact ctxInv_step q s L ih

theorem pendInv_reachable (s : SessState) (h : Reachable s) : pendInv s := by
  induction h with
  | init => simp [pendInv, initialState, defaultCtx]
  | step s q L _ ih => exact pendInv_step q s L ih

/-! ## Concrete fixtures for witnesses and counterexamples -/

/-- The knowledge document of the spec §8 scenario. -/
def kLines : List String :=
  ["Menu:", "1. Veg Salad - Rs 120", "Type: Veg", "2. Chicken Curry - Rs 250",
   "Policies:", "No outside food."]

def qMenu : String := "menu"
def qCancel : String := "cancel"
def qDelivery : String := "delivery"

def c4State : SessState := ⟨[("Veg Salad", 2)], ⟨"", "choose_mode", "", ""⟩, none⟩

def c9State : SessState := ⟨[], ⟨"delivery", "ordering", "", ""⟩, none⟩

/-- C4: an utterance matching a service-mode phrase for mode m' clears a
non-empty pending order iff m' differs from the current mode. -/
theorem C4_mode_switch_pending (s : SessState) (q : String) (L : List String)
    (hp : s.pending ≠ []) (hm : detectServiceMode q ≠ "") :
    (detectServiceMode q ≠ s.ctx.mode → (ruleStep q s L).1.pending = []) ∧
    (detectServiceMode q = s.ctx.mode → (ruleStep q s L).1.pending = s.pending) := by
  unfold ruleStep modeSelectBranch
  dsimp only
  rw [if_pos hm]
  constructor <;> intro h3 <;> split_ifs <;> simp_all

theorem C4_witness :
    c4State.pending ≠ [] ∧ detectServiceMode qDelivery ≠ "" ∧
    detectServiceMode qDelivery ≠ c4State.ctx.mode ∧
    (ruleStep qDelivery c4State kLines).1.pending = [] :=
  ⟨by decide, by decide, by decide,
   (C4_mode_switch_pending c4State qDelivery kLines (by decide) (by decide)).1 (by decide)⟩

/-- C5: in every reachable session state, stage "await_slot" implies
dine-in mode, stage "await_address" implies delivery mode, and an empty
mode implies stage "choose_mode". -/
theorem C5_ctx_invariant (s : SessState) (h : Reachable s) :
    (s.ctx.stage = "await_slot" → s.ctx.mode = "dine_in") ∧
    (s.ctx.stage = "await_address" → s.ctx.mode = "delivery") ∧
    (s.ctx.mode = "" → s.ctx.stage = "choose_mode") :=
  ctxInv_reachable s h

def qDineIn : String := "dine in"

theorem C5_witness :
    ((ruleStep qDineIn initialState kLines).1.ctx.stage = "await_slot" →
      (ruleStep qDineIn initialState kLines).1.ctx.mode = "dine_in") ∧
    ((ruleStep qDineIn initialState kLines).1.ctx.stage = "await_address" →
      (ruleStep qDineIn initialState kLines).1.ctx.mode = "delivery") ∧
    ((ruleStep qDineIn initialState kLines).1.ctx.mode = "" →
      (ruleStep qDineIn initialState kLines).1.ctx.stage = "choose_mode") :=
  C5_ctx_invariant _ (Reachable.step _ _ _ Reachable.init)

/-- C8 counterexample: with no mode selected and a non-empty parsed menu,
the query "menu" is answered by the mode gate, not the menu listing. -/
theorem C8_counterexample :
    extractMenuItems kLines ≠ [] ∧
    (ruleStep qMenu initialState kLines).2.map Response.kind = some ("mode_required") ∧
    (ruleStep qMenu initialState kLines).2.map Response.kind ≠ some ("menu") := by
  refine ⟨by decide, by decide, by decide⟩

/-- C8 (amended): with no mode selected, any utterance containing a
greeting/order/menu/confirm/cancel keyword (and no service-mode phrase) is
answered with the mode-selection prompt, kind "mode_required", leaving the
state unchanged. -/
theorem C8_menu_query_mode_gate (s : SessState) (q : String) (L : List String)
    (hm : s.ctx.mode = "") (hst : s.ctx.stage = "choose_mode")
    (hd : detectServiceMode q = "")
    (hk : hasAnyKw (tokenize q) (GREETING_KEYWORDS ++ ORDER_KEYWORDS ++
      MENU_KEYWORDS ++ CONFIRM_KEYWORDS ++ CANCEL_KEYWORDS) = true) :
    ruleStep q s L =
      (s, some (newResponse ("Is this for Dine-In or Online Delivery?") ("mode_required")
        false 0 s.ctx)) := by
  unfold ruleStep
  dsimp only
  rw [if_neg (by simp [hd]), if_neg (by rw [hst]; decide),
    if_neg (fun h3 => by rw [hm] at h3; exact absurd h3.1 (by decide)),
    if_neg (by rw [hst]; decide), if_pos ⟨hm, hk⟩]

theorem C8_witness :
    ruleStep qMenu initialState kLines =
      (initialState, some (newResponse ("Is this for Dine-In or Online Delivery?")
        ("mode_required") false 0 initialState.ctx)) :=
  C8_menu_query_mode_gate initialState qMenu kLines (by decide) (by decide) (by decide) (by decide)

/-- C9 counterexample: on a fresh session (no mode selected), "cancel" is
answered by the mode gate, not with "No pending order to cancel.". -/
theorem C9_counterexample :
    initialState.pending = [] ∧
    (ruleStep qCancel initialState kLines).2.map Response.answer =
      some ("Is this for Dine-In or Online Delivery?") ∧
    (ruleStep qCancel initialState kLines).2.map Response.answer ≠
      some ("No pending order to cancel.") := by
  refine ⟨by decide, by decide, by decide⟩

/-- C9 (amended): with a mode selected, not awaiting a slot or address, no
pending order, an utterance carrying a cancel keyword but no service-mode
phrase, greeting keyword or slot expression gets "No pending order to
cancel." and leaves the state unchanged; a second identical utterance
repeats the same response. -/
theorem C9_cancel_idempotent (s : SessState) (q : String) (L : List String)
    (hp : s.pending = []) (hm : s.ctx.mode ≠ "")
    (hs1 : s.ctx.stage ≠ "await_slot") (hs2 : s.ctx.stage ≠ "await_address")
    (hd : detectServiceMode q = "") (hsl : extractSlot q = "")
    (hc : hasAnyKw (tokenize q) CANCEL_KEYWORDS = true)
    (hg : hasAnyKw (tokenize q) GREETING_KEYWORDS = false) :
    ruleStep q s L =
      (s, some (newResponse ("No pending order to cancel.") ("message") false 0 s.ctx)) ∧
    ruleStep q (ruleStep q s L).1 L = ruleStep q s L := by
  have hof : handleOrderFlow q s (extractMenuItems L) =
      (s, some (newResponse ("No pending order to cancel.") ("message") false 0 s.ctx)) := by
    unfold handleOrderFlow orderCancelBranch
    dsimp only
    rw [if_pos hc, if_neg (by simp [hp])]
  have hmain : ruleStep q s L =
      (s, some (newResponse ("No pending order to cancel.") ("message") false 0 s.ctx)) := by
    unfold ruleStep
    dsimp only
    rw [if_neg (by simp [hd]), if_neg hs1,
      if_neg (fun h3 => absurd h3.2.2 (by simp [hsl])), if_neg hs2,
      if_neg (fun h5 => hm h5.1), if_neg (by simp [hg]), hof]
    rfl
  exact ⟨hmain, by rw [hmain]; exact hmain⟩

theorem C9_witness :
    (ruleStep qCancel c9State kLines =
      (c9State, some (newResponse ("No pending order to cancel.") ("message") false 0
        c9State.ctx))) ∧
    ruleStep qCancel (ruleStep qCancel c9State kLines).1 kLines =
      ruleStep qCancel c9State kLines :=
  C9_cancel_idempotent c9State qCancel kLines (by decide) (by decide) (by decide)
    (by decide) (by decide) (by decide) (by decide) (by decide)

def qConfirm : String := "confirm"
def qConfirmDelivery : String := "confirm delivery"
def qYesConfirm : String := "yes confirm my order please"

def c2cState : SessState := ⟨[("Veg Salad", 2)], ⟨"dine_in", "ordering", "", ""⟩, none⟩
def c2wState : SessState := ⟨[("Veg Salad", 2)], ⟨"dine_in", "ordering", "", ""⟩, none⟩
def c3cState : SessState := ⟨[("Veg Salad", 2)], ⟨"delivery", "await_address", "", ""⟩, none⟩

/-- C2 counterexample: in dine-in mode with no slot and a pending order,
the confirm-keyword utterance "confirm delivery" is intercepted by
service-mode detection: it clears the pending order and answers with kind
"mode_selected", not "slot_required". -/
theorem C2_counterexample :
    hasAnyKw (tokenize qConfirmDelivery) CONFIRM_KEYWORDS = true ∧
    c2cState.ctx.mode = "dine_in" ∧ c2cState.ctx.slot = "" ∧ c2cState.pending ≠ [] ∧
    (ruleStep qConfirmDelivery c2cState kLines).1.pending = [] ∧
    (ruleStep qConfirmDelivery c2cState kLines).2.map Response.kind =
      some ("mode_selected") := by
  refine ⟨by decide, by decide, by decide, by decide, by decide, by decide⟩

/-- C2 (amended): in dine-in mode with no slot and a non-empty pending
order, a confirm utterance that matches no service-mode phrase, carries no
cancel or greeting keyword and yields no slot expression never produces a
bill: in stage "await_slot" it re-prompts with kind "slot_required" and
order_pending=false, in any other stage but "await_address" it re-prompts
with kind "slot_required" and order_pending=true; the pending order is
unchanged in both cases. -/
theorem C2_dinein_confirm_no_slot (s : SessState) (q : String) (L : List String)
    (hm : s.ctx.mode = "dine_in") (hslot : s.ctx.slot = "")
    (hp : s.pending ≠ []) (hst : s.ctx.stage ≠ "await_address")
    (hconf : hasAnyKw (tokenize q) CONFIRM_KEYWORDS = true)
    (hcanc : hasAnyKw (tokenize q) CANCEL_KEYWORDS = false)
    (hgreet : hasAnyKw (tokenize q) GREETING_KEYWORDS = false)
    (hd : detectServiceMode q = "") (hsl : extractSlot q = "") :
    (s.ctx.stage = "await_slot" →
      ruleStep q s L = (s, some (newResponse
        ("Please share a valid time slot (example: 7:30 PM, 8 PM, Dinner).")
        ("slot_required") false 0 s.ctx))) ∧
    (s.ctx.stage ≠ "await_slot" →
      ruleStep q s L = ({ s with ctx := { s.ctx with stage := "await_slot" } },
        some (newResponse
          ("Please share your preferred dine-in slot (example: 7:30 PM, Dinner, 8 PM).")
          ("slot_required") true 0 { s.ctx with stage := "await_slot" }))) := by
  constructor
  · intro hslot2
    unfold ruleStep awaitSlotBranch
    dsimp only
    rw [if_neg (by simp [hd]), if_pos hslot2, if_neg (by simp [hsl])]
  · intro hslot2
    have hof : handleOrderFlow q s (extractMenuItems L) =
        ({ s with ctx := { s.ctx with stage := "await_slot" } },
         some (newResponse
           ("Please share your preferred dine-in slot (example: 7:30 PM, Dinner, 8 PM).")
           ("slot_required") true 0 { s.ctx with stage := "await_slot" })) := by
      unfold handleOrderFlow orderConfirmBranch
      dsimp only
      rw [if_neg (by simp [hcanc]), if_pos hconf, if_neg (by simp [hp]),
        if_neg (by simp [hm]), if_pos ⟨hm, hslot⟩]
    unfold ruleStep
    dsimp only
    rw [if_neg (by simp [hd]), if_neg hslot2,
      if_neg (fun h3 => absurd h3.2.2 (by simp [hsl])), if_neg hst,
      if_neg (fun h5 => by rw [hm] at h5; exact absurd h5.1 (by decide)),
      if_neg (by simp [hgreet]), hof]
    rfl

theorem C2_witness :
    ruleStep qConfirm c2wState kLines =
      ({ c2wState with ctx := { c2wState.ctx with stage := "await_slot" } },
       some (newResponse
         ("Please share your preferred dine-in slot (example: 7:30 PM, Dinner, 8 PM).")
         ("slot_required") true 0 { c2wState.ctx with stage := "await_slot" })) :=
  (C2_dinein_confirm_no_slot c2wState qConfirm kLines (by decide) (by decide) (by decide)
    (by decide) (by decide) (by decide) (by decide) (by decide) (by decide)).2 (by decide)

/-- C3 counterexample: in delivery mode awaiting an address with a pending
order, the confirm-keyword utterance "yes confirm my order please" passes
the address heuristic and immediately finalizes a bill. -/
theorem C3_counterexample :
    hasAnyKw (tokenize qYesConfirm) CONFIRM_KEYWORDS = true ∧
    c3cState.ctx.mode = "delivery" ∧ c3cState.ctx.address = "" ∧ c3cState.pending ≠ [] ∧
    looksLikeAddress qYesConfirm = true ∧
    (ruleStep qYesConfirm c3cState kLines).2.map Response.kind = some ("bill") := by
  refine ⟨by decide, by decide, by decide, by decide, by decide, by decide⟩

/-- C3 (amended): in delivery mode with no address and a non-empty pending
order, a confirm utterance that matches no service-mode phrase and carries
no cancel or greeting keyword behaves as follows: outside stage
"await_address" (and "await_slot") it moves the stage to "await_address"
and, whenever a response is produced, answers with kind "address_required"
and order_pending=true, keeping the pending order; in stage "await_address"
it re-prompts with kind "address_required" when the utterance fails the
address heuristic (in particular for the reserved word "confirm"), again
keeping the pending order; a bill can only be produced when the stage is
"await_address" and the utterance passes the address heuristic. -/
theorem C3_delivery_confirm_no_address (s : SessState) (q : String) (L : List String)
    (hm : s.ctx.mode = "delivery") (haddr : s.ctx.address = "")
    (hp : s.pending ≠ []) (hst1 : s.ctx.stage ≠ "await_slot")
    (hconf : hasAnyKw (tokenize q) CONFIRM_KEYWORDS = true)
    (hcanc : hasAnyKw (tokenize q) CANCEL_KEYWORDS = false)
    (hgreet : hasAnyKw (tokenize q) GREETING_KEYWORDS = false)
    (hd : detectServiceMode q = "") :
    (s.ctx.stage ≠ "await_address" →
      (ruleStep q s L).1.ctx.stage = "await_address" ∧
      (ruleStep q s L).1.pending = s.pending ∧
      ∀ r, (ruleStep q s L).2 = some r →
        r.kind = "address_required" ∧ r.orderPending = true) ∧
    (s.ctx.stage = "await_address" → looksLikeAddress q = false →
      ruleStep q s L = (s, some (newResponse
        ("Please provide complete delivery address (house/flat, area, city, pincode).")
        ("address_required") false 0 s.ctx))) ∧
    (∀ r, (ruleStep q s L).2 = some r → r.kind = "bill" →
      s.ctx.stage = "await_address" ∧ looksLikeAddress q = true) := by
  have hmode3 : ¬(s.ctx.mode = "dine_in" ∧ s.ctx.stage = "ordering" ∧ extractSlot q ≠ "") :=
    fun h3 => by rw [hm] at h3; exact absurd h3.1 (by decide)
  have hmode5 : ¬(s.ctx.mode = "" ∧ hasAnyKw (tokenize q) (GREETING_KEYWORDS ++
      ORDER_KEYWORDS ++ MENU_KEYWORDS ++ CONFIRM_KEYWORDS ++ CANCEL_KEYWORDS) = true) :=
    fun h5 => by rw [hm] at h5; exact absurd h5.1 (by decide)
  by_cases hst : s.ctx.stage = "await_address"
  · have heqNoAddr : looksLikeAddress q = false →
        ruleStep q s L = (s, some (newResponse
          ("Please provide complete delivery address (house/flat, area, city, pincode).")
          ("address_required") false 0 s.ctx)) := by
      intro hla
      unfold ruleStep awaitAddressBranch
      dsimp only
      rw [if_neg (by simp [hd]), if_neg hst1, if_neg hmode3, if_pos hst,
        if_neg (by simp [hcanc]), if_neg (by simp [hla])]
    refine ⟨fun h => absurd hst h, fun _ hla => heqNoAddr hla, fun r hr hk => ⟨hst, ?_⟩⟩
    by_cases hla : looksLikeAddress q = true
    · exact hla
    · exfalso
      rw [heqNoAddr (by simpa using hla)] at hr
      have hr2 := Option.some.inj hr
      rw [← hr2] at hk
      simp [newResponse] at hk
  · have hrs : ruleStep q s L =
        (match (handleOrderFlow q s (extractMenuItems L)).2 with
         | none => handleOrderFlow q s (extractMenuItems L)
         | some resp =>
           if resp.answer ≠ "" then handleOrderFlow q s (extractMenuItems L)
           else staticRoutes (tokenize q) s L (extractMenuItems L)) := by
      unfold ruleStep
      dsimp only
      rw [if_neg (by simp [hd]), if_neg hst1, if_neg hmode3, if_neg hst, if_neg hmode5,
        if_neg (by simp [hgreet])]
    rcases hsum : orderSummary s.pending (extractMenuItems L)
        { s.ctx with stage := "await_address" } with _ | ⟨summary, subtotal⟩
    · have hof : handleOrderFlow q s (extractMenuItems L) =
          ({ s with ctx := { s.ctx with stage := "await_address" } }, none) := by
        unfold handleOrderFlow orderConfirmBranch
        dsimp only
        rw [if_neg (by simp [hcanc]), if_pos hconf, if_neg (by simp [hp]),
          if_neg (by simp [hm]),
          if_neg (fun h3 => by rw [hm] at h3; exact absurd h3.1 (by decide)),
          if_pos ⟨hm, haddr⟩, hsum]
      rw [hof] at hrs
      refine ⟨fun _ => ?_, fun h => absurd h hst, fun r hr hk => ?_⟩
      · rw [hrs]
        exact ⟨rfl, rfl, fun r hr => Option.noConfusion hr⟩
      · rw [hrs] at hr
        exact Option.noConfusion hr
    · have hof : handleOrderFlow q s (extractMenuItems L) =
          ({ s with ctx := { s.ctx with stage := "await_address" } },
           some (newResponse
             (summary ++ "\nPlease share complete delivery address to generate final bill.")
             ("address_required") true subtotal
             { s.ctx with stage := "await_address" })) := by
        unfold handleOrderFlow orderConfirmBranch
        dsimp only
        rw [if_neg (by simp [hcanc]), if_pos hconf, if_neg (by simp [hp]),
          if_neg (by simp [hm]),
          if_neg (fun h3 => by rw [hm] at h3; exact absurd h3.1 (by decide)),
          if_pos ⟨hm, haddr⟩, hsum]
      have hans : (summary ++ "\nPlease share complete delivery address to generate final bill.") ≠ "" := by
        intro h
        have hdata : summary.data ++
            ("\nPlease share complete delivery address to generate final bill." : String).data =
            ([] : List Char) := by
          have h2 := congrArg String.data h
          rwa [String.data_append] at h2
        rcases List.append_eq_nil.mp hdata with ⟨-, h3⟩
        exact absurd h3 (by decide)
      rw [hof] at hrs
      dsimp only [newResponse] at hrs
      rw [if_pos hans] at hrs
      refine ⟨fun _ => ?_, fun h => absurd h hst, fun r hr hk => ?_⟩
      · rw [hrs]
        refine ⟨rfl, rfl, fun r hr => ?_⟩
        have hr2 := Option.some.inj hr
        rw [← hr2]
        exact ⟨rfl, rfl⟩
      · exfalso
        rw [hrs] at hr
        have hr2 := Option.some.inj hr
        rw [← hr2] at hk
        simp at hk

theorem C3_witness :
    ruleStep qConfirm c3cState kLines =
      (c3cState, some (newResponse
        ("Please provide complete delivery address (house/flat, area, city, pincode).")
        ("address_required") false 0 c3cState.ctx)) :=
  (C3_delivery_confirm_no_address c3cState qConfirm kLines (by decide) (by decide)
    (by decide) (by decide) (by decide) (by decide) (by decide) (by decide)).2.1
    (by decide) (by decide)

/-! ## Bill arithmetic -/

/-- `gstNat` agrees with half-to-even rounding of the exact rational
`subtotal * GST_RATE`. -/
theorem gstNat_eq_pyRound (n : ℕ) :
    (gstNat n : ℤ) = pyRound ((n : ℚ) * GST_RATE) := by
  obtain ⟨q, r, hr, rfl⟩ : ∃ q r, r < 20 ∧ n = 20 * q + r :=
    ⟨n / 20, n % 20, Nat.mod_lt _ (by norm_num), (Nat.div_add_mod n 20).symm⟩
  have hdiv : (20 * q + r) / 20 = q := by omega
  have hmod : (20 * q + r) % 20 = r := by omega
  have hrq20 : (r : ℚ) < 20 := by exact_mod_cast hr
  have hrate : ((20 * q + r : ℕ) : ℚ) * GST_RATE = (q : ℚ) + (r : ℚ) / 20 := by
    rw [GST_RATE]; push_cast; ring
  have hfloor : Int.floor ((q : ℚ) + (r : ℚ) / 20) = (q : ℤ) := by
    rw [Int.floor_eq_iff]
    have hnn : (0 : ℚ) ≤ (r : ℚ) / 20 := by positivity
    have hlt : (r : ℚ) / 20 < 1 := by
      rw [div_lt_one (by norm_num)]; exact hrq20
    constructor <;> push_cast <;> linarith
  rw [hrate]
  unfold pyRound gstNat
  dsimp only
  rw [hdiv, hmod, hfloor]
  have hsub : ((q : ℚ) + (r : ℚ) / 20) - ((q : ℤ) : ℚ) = (r : ℚ) / 20 := by
    push_cast; ring
  rw [hsub]
  by_cases h1 : r < 10
  · have hrq : (r : ℚ) < 10 := by exact_mod_cast h1
    rw [if_pos h1, if_pos (by linarith : (r : ℚ) / 20 < 1 / 2)]
  · by_cases h2 : 10 < r
    · have hrq : (10 : ℚ) < (r : ℚ) := by exact_mod_cast h2
      rw [if_neg h1, if_pos h2, if_neg (by intro hcon; linarith : ¬((r : ℚ) / 20 < 1 / 2)),
        if_pos (by linarith : (1 : ℚ) / 2 < (r : ℚ) / 20)]
      push_cast; ring
    · have hre : r = 10 := by omega
      subst hre
      rw [if_neg h1, if_neg h2,
        show ((10 : ℕ) : ℚ) / 20 = 1 / 2 by norm_num,
        if_neg (show ¬((1 : ℚ) / 2 < 1 / 2) by norm_num),
        if_neg (show ¬((1 : ℚ) / 2 < 1 / 2) by norm_num)]
      by_cases hq : q % 2 = 0
      · rw [if_pos hq, if_pos (by omega : (q : ℤ) % 2 = 0)]
      · rw [if_neg hq, if_neg (by omega : ¬((q : ℤ) % 2 = 0))]
        push_cast; ring

/-- `dictUpsert` preserves a per-entry predicate. -/
theorem dictUpsert_forall {α : Type} (P : String × α → Prop) (d : List (String × α))
    (k : String) (v : α) (hd : ∀ kv ∈ d, P kv) (hkv : P (k, v)) :
    ∀ kv ∈ dictUpsert d k v, P kv := by
  induction d with
  | nil =>
    intro kv hkv2
    rw [dictUpsert] at hkv2
    have h2 := List.mem_singleton.mp hkv2
    rw [h2]
    exact hkv
  | cons hd2 tl ih =>
    intro kv hkv2
    rw [dictUpsert] at hkv2
    split_ifs at hkv2 with he
    · rcases List.mem_cons.mp hkv2 with rfl | hmem
      · exact hkv
      · exact hd _ (List.mem_cons_of_mem _ hmem)
    · rcases List.mem_cons.mp hkv2 with rfl | hmem
      · exact hd _ (List.mem_cons_self _ _)
      · exact ih (fun x hx => hd _ (List.mem_cons_of_mem _ hx)) _ hmem

/-- Every entry of `menuByName` maps a name to an item carrying that name. -/
theorem menuByName_name (menuItems : List MenuItem) :
    ∀ kv ∈ menuByName menuItems, kv.2.name = kv.1 := by
  suffices hgen : ∀ d0, (∀ kv ∈ d0, (kv : String × MenuItem).2.name = kv.1) →
      ∀ kv ∈ menuItems.foldl (fun d it => dictUpsert d it.name it) d0, kv.2.name = kv.1 by
    exact hgen [] (by simp)
  induction menuItems with
  | nil => intro d0 h0; exact h0
  | cons it tl ih =>
    intro d0 h0
    exact ih _ (dictUpsert_forall _ d0 it.name it h0 rfl)

theorem lookup_name (d : List (String × MenuItem)) (nm : String) (item : MenuItem)
    (hinv : ∀ kv ∈ d, kv.2.name = kv.1) (h : d.lookup nm = some item) :
    item.name = nm := by
  induction d with
  | nil => simp [List.lookup] at h
  | cons kv tl ih =>
    rw [List.lookup] at h
    by_cases hbe : (nm == kv.1) = true
    · rw [hbe] at h
      have hk : kv.1 = nm := (eq_of_beq hbe).symm
      have hv : kv.2 = item := by
        dsimp only at h
        exact Option.some.inj h
      rw [← hv, hinv kv (List.mem_cons_self _ _), hk]
    · have hbe2 : (nm == kv.1) = false := by simpa using hbe
      rw [hbe2] at h
      dsimp only at h
      exact ih (fun x hx => hinv _ (List.mem_cons_of_mem _ hx)) h

/-- Structure of the bill rows: line totals are unit price times quantity,
and names/quantities follow the pending map in insertion order. -/
theorem billRowsGo_props (menuItems : List MenuItem) (order : List (String × Nat))
    (rows : List BillItem) (h : billRowsGo (menuByName menuItems) order = some rows) :
    (∀ it ∈ rows, it.lineTotal = it.unitPrice * it.quantity) ∧
    rows.map BillItem.name = order.map Prod.fst ∧
    rows.map BillItem.quantity = order.map Prod.snd := by
  induction order generalizing rows with
  | nil =>
    rw [billRowsGo] at h
    have := Option.some.inj h
    subst this
    simp
  | cons kv rest ih =>
    rw [billRowsGo] at h
    rcases hlook : (menuByName menuItems).lookup kv.1 with _ | item
    · rw [hlook] at h; exact Option.noConfusion h
    · rw [hlook] at h
      rcases hrest : billRowsGo (menuByName menuItems) rest with _ | rows2
      · rw [hrest] at h; exact Option.noConfusion h
      · rw [hrest] at h
        have hrows := Option.some.inj h
        subst hrows
        obtain ⟨ih1, ih2, ih3⟩ := ih rows2 hrest
        refine ⟨?_, ?_, ?_⟩
        · intro it hit
          rcases List.mem_cons.mp hit with rfl | hmem
          · rfl
          · exact ih1 it hmem
        · simp only [List.map_cons, ih2]
          rw [lookup_name _ _ _ (menuByName_name menuItems) hlook]
        · simp [ih3]

/-- The computed parts of a successful `generateBill`. -/
theorem generateBill_shape (order : List (String × Nat)) (menuItems : List MenuItem)
    (ctx : Ctx) (text : String) (b : Bill)
    (h : generateBill order menuItems ctx = some (text, b)) :
    ∃ rows, billRowsGo (menuByName menuItems) order = some rows ∧
      b.items = rows ∧ b.subtotal = (rows.map BillItem.lineTotal).sum ∧
      b.gst = gstNat b.subtotal ∧ b.total = b.subtotal + b.gst := by
  unfold generateBill at h
  rcases hrows : billRowsGo (menuByName menuItems) order with _ | rows
  · rw [hrows] at h; exact Option.noConfusion h
  · rw [hrows] at h
    dsimp only at h
    have h2 := Option.some.inj h
    rw [Prod.mk.injEq] at h2
    obtain ⟨-, hb⟩ := h2
    exact ⟨rows, rfl, by rw [← hb], by rw [← hb], by rw [← hb], by rw [← hb]⟩

/-! ## Which branches can produce a bill -/

theorem modeSelect_kind (sm : String) (s : SessState) (r : Response)
    (h : (modeSelectBranch sm s).2 = some r) : r.kind = "mode_selected" := by
  unfold modeSelectBranch at h
  dsimp only at h
  split_ifs at h <;> (obtain rfl := Option.some.inj h; rfl)

theorem awaitSlot_not_bill (q : String) (s : SessState) (r : Response)
    (h : (awaitSlotBranch q s).2 = some r) : r.kind ≠ "bill" := by
  unfold awaitSlotBranch at h
  dsimp only at h
  split_ifs at h <;> (obtain rfl := Option.some.inj h; simp [newResponse])

theorem slotUpdate_not_bill (us : String) (s : SessState) (r : Response)
    (h : (slotUpdateBranch us s).2 = some r) : r.kind ≠ "bill" := by
  unfold slotUpdateBranch at h
  obtain rfl := Option.some.inj h
  simp [newResponse]

theorem orderCancel_not_bill (s : SessState) (r : Response)
    (h : (orderCancelBranch s).2 = some r) : r.kind ≠ "bill" := by
  unfold orderCancelBranch at h
  dsimp only at h
  split_ifs at h <;> (obtain rfl := Option.some.inj h; simp [newResponse])

theorem staticRoutes_not_bill (toks : List String) (s : SessState)
    (lines : List String) (menuItems : List MenuItem) (r : Response)
    (h : (staticRoutes toks s lines menuItems).2 = some r) : r.kind ≠ "bill" := by
  unfold staticRoutes at h
  split_ifs at h <;> (obtain rfl := Option.some.inj h; simp [newResponse])

theorem orderItems_not_bill (q : String) (toks : List String) (s : SessState)
    (menuItems : List MenuItem) (r : Response)
    (h : (orderItemsBranch q toks s menuItems).2 = some r) : r.kind ≠ "bill" := by
  unfold orderItemsBranch at h
  dsimp only at h
  split_ifs at h <;> (try split at h) <;>
    first
    | exact Option.noConfusion h
    | (obtain rfl := Option.some.inj h; simp [newResponse])

theorem awaitAddress_bill (q : String) (toks : List String) (s : SessState)
    (menuItems : List MenuItem) (r : Response)
    (h : (awaitAddressBranch q toks s menuItems).2 = some r) (hk : r.kind = "bill") :
    ∃ text b, generateBill s.pending menuItems
        { s.ctx with address := pyStrip q, stage := "ordering" } = some (text, b) ∧
      awaitAddressBranch q toks s menuItems =
        (⟨[], defaultCtx, some b⟩, some (newResponse text ("bill") false b.total defaultCtx)) := by
  unfold awaitAddressBranch at h ⊢
  dsimp only at h ⊢
  split_ifs at h ⊢ with h1 h2 h3
  · obtain rfl := Option.some.inj h
    simp [newResponse] at hk
  · rcases hgen : generateBill s.pending menuItems
        { s.ctx with address := pyStrip q, stage := "ordering" } with _ | ⟨text, b⟩
    · rw [hgen] at h; exact Option.noConfusion h
    · rw [hgen] at h
      dsimp only at h
      obtain rfl := Option.some.inj h
      exact ⟨text, b, rfl, rfl⟩
  · obtain rfl := Option.some.inj h
    simp [newResponse] at hk
  · obtain rfl := Option.some.inj h
    simp [newResponse] at hk

theorem orderConfirm_bill (s : SessState) (menuItems : List MenuItem) (r : Response)
    (h : (orderConfirmBranch s menuItems).2 = some r) (hk : r.kind = "bill") :
    ∃ text b, generateBill s.pending menuItems s.ctx = some (text, b) ∧
      orderConfirmBranch s menuItems =
        (⟨[], defaultCtx, some b⟩, some (newResponse text ("bill") false b.total defaultCtx)) := by
  unfold orderConfirmBranch at h ⊢
  dsimp only at h ⊢
  split_ifs at h ⊢ with h1 h2 h3 h4
  · obtain rfl := Option.some.inj h
    simp [newResponse] at hk
  · obtain rfl := Option.some.inj h
    simp [newResponse] at hk
  · obtain rfl := Option.some.inj h
    simp [newResponse] at hk
  · rcases hsum : orderSummary s.pending menuItems
        { s.ctx with stage := "await_address" } with _ | ⟨summary, subtotal⟩
    · rw [hsum] at h; exact Option.noConfusion h
    · rw [hsum] at h
      dsimp only at h
      obtain rfl := Option.some.inj h
      simp [newResponse] at hk
  · rcases hgen : generateBill s.pending menuItems s.ctx with _ | ⟨text, b⟩
    · rw [hgen] at h; exact Option.noConfusion h
    · rw [hgen] at h
      dsimp only at h
      obtain rfl := Option.some.inj h
      exact ⟨text, b, rfl, rfl⟩

theorem handleOrderFlow_bill (q : String) (s : SessState) (menuItems : List MenuItem)
    (r : Response) (h : (handleOrderFlow q s menuItems).2 = some r)
    (hk : r.kind = "bill") :
    ∃ text b, generateBill s.pending menuItems s.ctx = some (text, b) ∧
      handleOrderFlow q s menuItems =
        (⟨[], defaultCtx, some b⟩, some (newResponse text ("bill") false b.total defaultCtx)) := by
  unfold handleOrderFlow at h ⊢
  dsimp only at h ⊢
  split_ifs at h ⊢ with hc hcf
  · exact absurd hk (orderCancel_not_bill s r h)
  · exact orderConfirm_bill s menuItems r h hk
  · exact absurd hk (orderItems_not_bill q (tokenize q) s menuItems r h)

/-- Any "bill" response of the dialogue engine comes from `generateBill` on
the session's pending order, and the resulting bill is stored as the
session's latest bill. -/
theorem ruleStep_bill (q : String) (s : SessState) (L : List String) (r : Response)
    (h : (ruleStep q s L).2 = some r) (hk : r.kind = "bill") :
    ∃ text b ctx2, generateBill s.pending (extractMenuItems L) ctx2 = some (text, b) ∧
      (ruleStep q s L).1.latestBill = some b := by
  by_cases h1 : detectServiceMode q ≠ ""
  · have hrs : ruleStep q s L = modeSelectBranch (detectServiceMode q) s := by
      unfold ruleStep; dsimp only; rw [if_pos h1]
    rw [hrs] at h
    rw [modeSelect_kind _ _ _ h] at hk
    exact absurd hk (by decide)
  · by_cases h2 : s.ctx.stage = "await_slot"
    · have hrs : ruleStep q s L = awaitSlotBranch q s := by
        unfold ruleStep; dsimp only; rw [if_neg h1, if_pos h2]
      rw [hrs] at h
      exact absurd hk (awaitSlot_not_bill q s r h)
    · by_cases h3 : s.ctx.mode = "dine_in" ∧ s.ctx.stage = "ordering" ∧ extractSlot q ≠ ""
      · have hrs : ruleStep q s L = slotUpdateBranch (extractSlot q) s := by
          unfold ruleStep; dsimp only; rw [if_neg h1, if_neg h2, if_pos h3]
        rw [hrs] at h
        exact absurd hk (slotUpdate_not_bill _ s r h)
      · by_cases h4 : s.ctx.stage = "await_address"
        · have hrs : ruleStep q s L =
              awaitAddressBranch q (tokenize q) s (extractMenuItems L) := by
            unfold ruleStep; dsimp only; rw [if_neg h1, if_neg h2, if_neg h3, if_pos h4]
          rw [hrs] at h ⊢
          obtain ⟨text, b, hgen, heq⟩ := awaitAddress_bill q _ s _ r h hk
          exact ⟨text, b, _, hgen, by rw [heq]⟩
        · by_cases h5 : s.ctx.mode = "" ∧ hasAnyKw (tokenize q) (GREETING_KEYWORDS ++
              ORDER_KEYWORDS ++ MENU_KEYWORDS ++ CONFIRM_KEYWORDS ++ CANCEL_KEYWORDS) = true
          · have hrs : ruleStep q s L = (s, some (newResponse
                ("Is this for Dine-In or Online Delivery?") ("mode_required") false 0 s.ctx)) := by
              unfold ruleStep; dsimp only
              rw [if_neg h1, if_neg h2, if_neg h3, if_neg h4, if_pos h5]
            rw [hrs] at h
            obtain rfl := Option.some.inj h
            simp [newResponse] at hk
          · by_cases h6 : hasAnyKw (tokenize q) GREETING_KEYWORDS = true
            · by_cases h7 : s.ctx.mode = ""
              · have hrs : ruleStep q s L = (s, some (newResponse
                    ("Hello. Is this for Dine-In or Online Delivery?") ("message") false 0 s.ctx)) := by
                  unfold ruleStep; dsimp only
                  rw [if_neg h1, if_neg h2, if_neg h3, if_neg h4, if_neg h5, if_pos h6, if_pos h7]
                rw [hrs] at h
                obtain rfl := Option.some.inj h
                simp [newResponse] at hk
              · have hrs : ruleStep q s L = (s, some (newResponse
                    ("Hello. You can now choose Veg/Non-Veg and place your order.")
                    ("message") false 0 s.ctx)) := by
                  unfold ruleStep; dsimp only
                  rw [if_neg h1, if_neg h2, if_neg h3, if_neg h4, if_neg h5, if_pos h6, if_neg h7]
                rw [hrs] at h
                obtain rfl := Option.some.inj h
                simp [newResponse] at hk
            · have hrs : ruleStep q s L =
                  (match (handleOrderFlow q s (extractMenuItems L)).2 with
                   | none => handleOrderFlow q s (extractMenuItems L)
                   | some resp =>
                     if resp.answer ≠ "" then handleOrderFlow q s (extractMenuItems L)
                     else staticRoutes (tokenize q) s L (extractMenuItems L)) := by
                unfold ruleStep; dsimp only
                rw [if_neg h1, if_neg h2, if_neg h3, if_neg h4, if_neg h5, if_neg h6]
              rcases hhof : (handleOrderFlow q s (extractMenuItems L)).2 with _ | resp
              · rw [hhof] at hrs
                rw [hrs] at h
                rw [hhof] at h
                exact Option.noConfusion h
              · rw [hhof] at hrs
                dsimp only at hrs
                by_cases ha : resp.answer ≠ ""
                · rw [if_pos ha] at hrs
                  rw [hrs] at h ⊢
                  rw [hhof] at h
                  have h2 : (handleOrderFlow q s (extractMenuItems L)).2 = some r := by
                    rw [hhof, Option.some.inj h]
                  obtain ⟨text, b, hgen, heq⟩ :=
                    handleOrderFlow_bill q s (extractMenuItems L) r h2 hk
                  exact ⟨text, b, _, hgen, by rw [heq]⟩
                · rw [if_neg ha] at hrs
                  rw [hrs] at h
                  exact absurd hk (staticRoutes_not_bill _ s L _ r h)

def c1State : SessState :=
  ⟨[("Veg Salad", 2)], ⟨"delivery", "ordering", "", "12 Baker Street, Springfield"⟩, none⟩

/-- C1: whenever a confirm finalizes a pending order into a bill, each line
total is unit price times quantity, the items follow the pending map's
insertion order, the subtotal is the sum of the line totals, the GST is the
rounding of subtotal times the GST rate, and the total is subtotal plus
GST. -/
theorem C1_confirmed_bill_arithmetic (q : String) (s : SessState) (L : List String)
    (h : (ruleStep q s L).2.map Response.kind = some ("bill")) :
    ∃ b, (ruleStep q s L).1.latestBill = some b ∧
      (∀ it ∈ b.items, it.lineTotal = it.unitPrice * it.quantity) ∧
      b.items.map BillItem.name = s.pending.map Prod.fst ∧
      b.items.map BillItem.quantity = s.pending.map Prod.snd ∧
      b.subtotal = (b.items.map BillItem.lineTotal).sum ∧
      (b.gst : ℤ) = pyRound ((b.subtotal : ℚ) * GST_RATE) ∧
      b.total = b.subtotal + b.gst := by
  rcases hr : (ruleStep q s L).2 with _ | r
  · rw [hr] at h; exact Option.noConfusion h
  · rw [hr] at h
    have hk : r.kind = "bill" := Option.some.inj h
    obtain ⟨text, b, ctx2, hgen, hlatest⟩ := ruleStep_bill q s L r hr hk
    obtain ⟨rows, hrows, hitems, hsub, hgst, htot⟩ := generateBill_shape _ _ _ _ _ hgen
    obtain ⟨hlt, hnames, hqtys⟩ := billRowsGo_props _ _ _ hrows
    refine ⟨b, hlatest, ?_, ?_, ?_, ?_, ?_, htot⟩
    · rw [hitems]; exact hlt
    · rw [hitems]; exact hnames
    · rw [hitems]; exact hqtys
    · rw [hitems, hsub]
    · rw [hgst]; exact gstNat_eq_pyRound _

theorem C1_witness :
    ∃ b, (ruleStep qConfirm c1State kLines).1.latestBill = some b ∧
      (∀ it ∈ b.items, it.lineTotal = it.unitPrice * it.quantity) ∧
      b.items.map BillItem.name = c1State.pending.map Prod.fst ∧
      b.items.map BillItem.quantity = c1State.pending.map Prod.snd ∧
      b.subtotal = (b.items.map BillItem.lineTotal).sum ∧
      (b.gst : ℤ) = pyRound ((b.subtotal : ℚ) * GST_RATE) ∧
      b.total = b.subtotal + b.gst :=
  C1_confirmed_bill_arithmetic qConfirm c1State kLines (by rfl)

/-! ## C6: totality and the stale-pending crash -/

def c6State : SessState := ⟨[("Margherita Pizza", 2)], ⟨"delivery", "ordering", "", ""⟩, none⟩
def qOrder : String := "order"
def qBlank : String := "   "

/-- C6: with a pending item that the freshly re-read knowledge file no
longer lists, the query "order" reaches the `menu_by_name[item_name]`
subscript of `_order_summary` and raises (modeled as a `none` response);
whitespace-only input, by contrast, does yield the prompt response without
touching the session. -/
theorem C6_stale_pending_raises :
    (ruleStep qOrder c6State kLines).2 = none ∧
    (askQuestion qBlank c6State kLines "").2.map Response.answer =
      some ("Please enter a valid question.") ∧
    (askQuestion qBlank c6State kLines "").1 = c6State := by
  refine ⟨by rfl, by rfl, by rfl⟩

/-! ## C7: stored quantities -/

def c7cState : SessState := ⟨[], ⟨"delivery", "ordering", "", ""⟩, none⟩
def qZeroPizza : String := "0 pizza"
def pzLines : List String := ["Menu:", "1. Margherita Pizza - Rs 200", "Policies:"]

/-- C7 counterexample: the explicit quantity 0 in "0 pizza" is parsed and
stored, so a pending-order map can hold a quantity below 1. -/
theorem C7_counterexample :
    (ruleStep qZeroPizza c7cState pzLines).1.pending = [("Margherita Pizza", 0)] ∧
    ¬(∀ kv ∈ (ruleStep qZeroPizza c7cState pzLines).1.pending, 1 ≤ kv.2) := by
  refine ⟨by decide, by decide⟩

theorem merge_pos (parsed pending : List (String × Nat))
    (hpend : ∀ kv ∈ pending, 1 ≤ kv.2) (hpar : ∀ kv ∈ parsed, 1 ≤ kv.2) :
    ∀ kv ∈ parsed.foldl (fun p kv => dictUpsert p kv.1 (dictGetNat p kv.1 + kv.2)) pending,
      1 ≤ kv.2 := by
  induction parsed generalizing pending with
  | nil => simpa using hpend
  | cons kv0 rest ih =>
    intro kv hkv
    refine ih (dictUpsert pending kv0.1 (dictGetNat pending kv0.1 + kv0.2))
      (dictUpsert_forall (fun x => 1 ≤ x.2) pending kv0.1 _ hpend ?_)
      (fun kv2 hkv2 => hpar kv2 (List.mem_cons_of_mem _ hkv2)) kv hkv
    have h0 := hpar kv0 (List.mem_cons_self _ _)
    dsimp only
    omega

theorem pend_src_modeSelect (sm : String) (s : SessState) :
    (modeSelectBranch sm s).1.pending = [] ∨ (modeSelectBranch sm s).1.pending = s.pending := by
  unfold modeSelectBranch
  dsimp only
  split_ifs <;> simp

theorem pend_src_awaitSlot (q : String) (s : SessState) :
    (awaitSlotBranch q s).1.pending = s.pending := by
  unfold awaitSlotBranch
  dsimp only
  split_ifs <;> rfl

theorem pend_src_awaitAddress (q : String) (toks : List String) (s : SessState)
    (menuItems : List MenuItem) :
    (awaitAddressBranch q toks s menuItems).1.pending = [] ∨
    (awaitAddressBranch q toks s menuItems).1.pending = s.pending := by
  unfold awaitAddressBranch
  dsimp only
  split_ifs <;> (repeat' split) <;> simp

theorem pend_src_orderCancel (s : SessState) :
    (orderCancelBranch s).1.pending = [] ∨ (orderCancelBranch s).1.pending = s.pending := by
  unfold orderCancelBranch
  dsimp only
  split_ifs <;> simp

theorem pend_src_orderConfirm (s : SessState) (menuItems : List MenuItem) :
    (orderConfirmBranch s menuItems).1.pending = [] ∨
    (orderConfirmBranch s menuItems).1.pending = s.pending := by
  unfold orderConfirmBranch
  dsimp only
  split_ifs <;> (repeat' split) <;> simp

theorem pend_src_orderItems (q : String) (toks : List String) (s : SessState)
    (menuItems : List MenuItem) :
    (orderItemsBranch q toks s menuItems).1.pending = s.pending ∨
    (orderItemsBranch q toks s menuItems).1.pending =
      parseOrderFromQuery q (buildMenuAliasMap menuItems) ∨
    (orderItemsBranch q toks s menuItems).1.pending =
      (parseOrderFromQuery q (buildMenuAliasMap menuItems)).foldl
        (fun p kv => dictUpsert p kv.1 (dictGetNat p kv.1 + kv.2)) s.pending := by
  unfold orderItemsBranch
  dsimp only
  split_ifs <;> (repeat' split) <;> simp_all

theorem pend_src_staticRoutes (toks : List String) (s : SessState)
    (lines : List String) (menuItems : List MenuItem) :
    (staticRoutes toks s lines menuItems).1.pending = s.pending := by
  unfold staticRoutes
  split_ifs <;> rfl

/-- After one dialogue step the pending order is empty, unchanged, the
parsed map of the utterance, or the "add"-merge of the two. -/
theorem ruleStep_pending_sources (q : String) (s : SessState) (L : List String) :
    (ruleStep q s L).1.pending = [] ∨ (ruleStep q s L).1.pending = s.pending ∨
    (ruleStep q s L).1.pending = parseOrderFromQuery q (buildMenuAliasMap (extractMenuItems L)) ∨
    (ruleStep q s L).1.pending =
      (parseOrderFromQuery q (buildMenuAliasMap (extractMenuItems L))).foldl
        (fun p kv => dictUpsert p kv.1 (dictGetNat p kv.1 + kv.2)) s.pending := by
  by_cases h1 : detectServiceMode q ≠ ""
  · have hrs : ruleStep q s L = modeSelectBranch (detectServiceMode q) s := by
      unfold ruleStep; dsimp only; rw [if_pos h1]
    rw [hrs]
    rcases pend_src_modeSelect (detectServiceMode q) s with h | h
    · exact Or.inl h
    · exact Or.inr (Or.inl h)
  · by_cases h2 : s.ctx.stage = "await_slot"
    · have hrs : ruleStep q s L = awaitSlotBranch q s := by
        unfold ruleStep; dsimp only; rw [if_neg h1, if_pos h2]
      rw [hrs]
      exact Or.inr (Or.inl (pend_src_awaitSlot q s))
    · by_cases h3 : s.ctx.mode = "dine_in" ∧ s.ctx.stage = "ordering" ∧ extractSlot q ≠ ""
      · have hrs : ruleStep q s L = slotUpdateBranch (extractSlot q) s := by
          unfold ruleStep; dsimp only; rw [if_neg h1, if_neg h2, if_pos h3]
        rw [hrs]
        exact Or.inr (Or.inl rfl)
      · by_cases h4 : s.ctx.stage = "await_address"
        · have hrs : ruleStep q s L =
              awaitAddressBranch q (tokenize q) s (extractMenuItems L) := by
            unfold ruleStep; dsimp only; rw [if_neg h1, if_neg h2, if_neg h3, if_pos h4]
          rw [hrs]
          rcases pend_src_awaitAddress q (tokenize q) s (extractMenuItems L) with h | h
          · exact Or.inl h
          · exact Or.inr (Or.inl h)
        · by_cases h5 : s.ctx.mode = "" ∧ hasAnyKw (tokenize q) (GREETING_KEYWORDS ++
              ORDER_KEYWORDS ++ MENU_KEYWORDS ++ CONFIRM_KEYWORDS ++ CANCEL_KEYWORDS) = true
          · have hrs : (ruleStep q s L).1 = s := by
              unfold ruleStep; dsimp only
              rw [if_neg h1, if_neg h2, if_neg h3, if_neg h4, if_pos h5]
            rw [hrs]
            exact Or.inr (Or.inl rfl)
          · by_cases h6 : hasAnyKw (tokenize q) GREETING_KEYWORDS = true
            · have hrs : (ruleStep q s L).1 = s := by
                unfold ruleStep; dsimp only
                rw [if_neg h1, if_neg h2, if_neg h3, if_neg h4, if_neg h5, if_pos h6]
                split_ifs <;> rfl
              rw [hrs]
              exact Or.inr (Or.inl rfl)
            · have hrs : ruleStep q s L =
                  (match (handleOrderFlow q s (extractMenuItems L)).2 with
                   | none => handleOrderFlow q s (extractMenuItems L)
                   | some resp =>
                     if resp.answer ≠ "" then handleOrderFlow q s (extractMenuItems L)
                     else staticRoutes (tokenize q) s L (extractMenuItems L)) := by
                unfold ruleStep; dsimp only
                rw [if_neg h1, if_neg h2, if_neg h3, if_neg h4, if_neg h5, if_neg h6]
              have hhofsrc : (handleOrderFlow q s (extractMenuItems L)).1.pending = [] ∨
                  (handleOrderFlow q s (extractMenuItems L)).1.pending = s.pending ∨
                  (handleOrderFlow q s (extractMenuItems L)).1.pending =
                    parseOrderFromQuery q (buildMenuAliasMap (extractMenuItems L)) ∨
                  (handleOrderFlow q s (extractMenuItems L)).1.pending =
                    (parseOrderFromQuery q (buildMenuAliasMap (extractMenuItems L))).foldl
                      (fun p kv => dictUpsert p kv.1 (dictGetNat p kv.1 + kv.2)) s.pending := by
                unfold handleOrderFlow
                dsimp only
                split_ifs
                · rcases pend_src_orderCancel s with h | h
                  · exact Or.inl h
                  · exact Or.inr (Or.inl h)
                · rcases pend_src_orderConfirm s (extractMenuItems L) with h | h
                  · exact Or.inl h
                  · exact Or.inr (Or.inl h)
                · rcases pend_src_orderItems q (tokenize q) s (extractMenuItems L) with h | h | h
                  · exact Or.inr (Or.inl h)
                  · exact Or.inr (Or.inr (Or.inl h))
                  · exact Or.inr (Or.inr (Or.inr h))
              rw [hrs]
              rcases hhof : (handleOrderFlow q s (extractMenuItems L)).2 with _ | resp
              · exact hhofsrc
              · dsimp only
                split_ifs
                · exact hhofsrc
                · rw [pend_src_staticRoutes (tokenize q) s L (extractMenuItems L)]
                  exact Or.inr (Or.inl rfl)

/-- C7 (amended): every dialogue step keeps all pending quantities positive
provided the utterance's own parsed quantities are positive (an explicit
zero quantity such as "0 pizza" is stored as 0). -/
theorem C7_quantities_positive (q : String) (s : SessState) (L : List String)
    (h : ∀ kv ∈ s.pending, 1 ≤ kv.2)
    (hq : ∀ kv ∈ parseOrderFromQuery q (buildMenuAliasMap (extractMenuItems L)), 1 ≤ kv.2) :
    ∀ kv ∈ (ruleStep q s L).1.pending, 1 ≤ kv.2 := by
  rcases ruleStep_pending_sources q s L with h1 | h1 | h1 | h1 <;> rw [h1]
  · simp
  · exact h
  · exact hq
  · exact merge_pos _ _ h hq

def c7wState : SessState := ⟨[("Veg Salad", 2)], ⟨"delivery", "ordering", "", ""⟩, none⟩
def qAddCurry : String := "add 1 curry"

theorem C7_witness :
    ("Chicken Curry", 1) ∈ (ruleStep qAddCurry c7wState kLines).1.pending ∧
    1 ≤ (("Chicken Curry", 1) : String × Nat).2 :=
  ⟨by decide, C7_quantities_positive qAddCurry c7wState kLines (by decide) (by decide)
    ("Chicken Curry", 1) (by decide)⟩

/-! ## C10: awaiting an address implies a pending order -/

/-- C10: in every reachable session state, stage "await_address" implies a
non-empty pending order; consequently, in that stage an utterance that
passes the address heuristic (and carries no cancel keyword or service-mode
phrase) finalizes a bill whenever a response is produced — the
"Address saved" branch is unreachable there. -/
theorem C10_await_address_invariant (s : SessState) (h : Reachable s) :
    (s.ctx.stage = "await_address" → s.pending ≠ []) ∧
    (∀ q L r, s.ctx.stage = "await_address" →
      hasAnyKw (tokenize q) CANCEL_KEYWORDS = false → looksLikeAddress q = true →
      detectServiceMode q = "" →
      (ruleStep q s L).2 = some r → r.kind = "bill") := by
  have hpend := pendInv_reachable s h
  refine ⟨hpend, fun q L r hst hc hla hd hr => ?_⟩
  have hrs : ruleStep q s L = awaitAddressBranch q (tokenize q) s (extractMenuItems L) := by
    unfold ruleStep
    dsimp only
    rw [if_neg (by simp [hd]), if_neg (by rw [hst]; decide),
      if_neg (fun h3 => by rw [hst] at h3; exact absurd h3.2.1 (by decide)), if_pos hst]
  rw [hrs] at hr
  unfold awaitAddressBranch at hr
  dsimp only at hr
  rw [if_neg (by simp [hc]), if_pos hla, if_pos (hpend hst)] at hr
  rcases hgen : generateBill s.pending (extractMenuItems L)
      { s.ctx with address := pyStrip q, stage := "ordering" } with _ | ⟨text, b⟩
  · rw [hgen] at hr
    exact Option.noConfusion hr
  · rw [hgen] at hr
    dsimp only at hr
    obtain rfl := Option.some.inj hr
    rfl

def qTwoSalad : String := "2 veg salad"
def c10s1 : SessState := (ruleStep qDelivery initialState kLines).1
def c10s2 : SessState := (ruleStep qTwoSalad c10s1 kLines).1
def c10s3 : SessState := (ruleStep qConfirm c10s2 kLines).1

theorem C10_witness : c10s3.ctx.stage = "await_address" ∧ c10s3.pending ≠ [] :=
  ⟨by decide,
   (C10_await_address_invariant c10s3
     (Reachable.step c10s2 qConfirm kLines
       (Reachable.step c10s1 qTwoSalad kLines
         (Reachable.step initialState qDelivery kLines Reachable.init)))).1 (by decide)⟩
